import Mathlib

/-!
# YelpCamp: campground routes

A shallow embedding of `routes/campgrounds.js`.

* Part 1 models the JavaScript strings and the `RegExp` fragment the file relies on
  (`escapeRegex`, the search filter, the upload file filter).
* Part 2 models the route handlers as functions from a request and the answers of
  the external collaborators (document store, image host) to the trace of effects
  the handler performs.
-/

namespace YelpCamp

/-! ## Part 1: strings and regular expressions -/

/-- A JavaScript string, as its sequence of UTF-16 code units. -/
abbrev JSString := List Nat

/-- Code units of a literal whose characters all lie in the Basic Multilingual Plane. -/
def js (s : String) : JSString := s.toList.map Char.toNat

/-- ECMAScript `WhiteSpace` and `LineTerminator` code units: what `\s` matches. -/
def isWhiteSpace (c : Nat) : Bool :=
  decide (c = 9 ∨ c = 10 ∨ c = 11 ∨ c = 12 ∨ c = 13 ∨ c = 32 ∨ c = 160 ∨ c = 0x1680
    ∨ (0x2000 ≤ c ∧ c ≤ 0x200a) ∨ c = 0x2028 ∨ c = 0x2029 ∨ c = 0x202f ∨ c = 0x205f
    ∨ c = 0x3000 ∨ c = 0xfeff)

/-- Decimal digits `0`..`9`: what `\d` matches. -/
def isDigit (c : Nat) : Bool := decide (48 ≤ c ∧ c ≤ 57)

/-- Word characters `[A-Za-z0-9_]`: what `\w` matches. -/
def isWordChar (c : Nat) : Bool :=
  decide ((97 ≤ c ∧ c ≤ 122) ∨ (65 ≤ c ∧ c ≤ 90) ∨ (48 ≤ c ∧ c ≤ 57) ∨ c = 95)

/-- Line terminators, which `.` does not match. -/
def isLineTerminator (c : Nat) : Bool := decide (c = 10 ∨ c = 13 ∨ c = 0x2028 ∨ c = 0x2029)

/-- Upper-casing of an ASCII code unit. -/
def asciiUpper (c : Nat) : Nat := if 97 ≤ c ∧ c ≤ 122 then c - 32 else c

/-- Lower-casing of an ASCII code unit. -/
def asciiLower (c : Nat) : Nat := if 65 ≤ c ∧ c ≤ 90 then c + 32 else c

/-- The result of `String.prototype.toUpperCase` on a one-code-unit string. On ASCII
it is `asciiUpper`; above ASCII it is read from the Unicode table `tbl`, which is
taken as a parameter. -/
def toUpperCase (tbl : Nat → JSString) (ch : Nat) : JSString :=
  if ch < 128 then [asciiUpper ch] else tbl ch

/-- ECMAScript `Canonicalize` for a case-insensitive pattern without the `u` flag. -/
def canonicalize (tbl : Nat → JSString) (ch : Nat) : Nat :=
  match toUpperCase tbl ch with
  | [cu] => if 128 ≤ ch ∧ cu < 128 then ch else cu
  | _ => ch

/-- An element of a bracket expression. -/
inductive ClassItem where
  | single (c : Nat)
  | range (lo hi : Nat)
  | digit (neg : Bool)
  | word (neg : Bool)
  | space (neg : Bool)
  deriving DecidableEq, Repr

/-- Why `new RegExp` did not produce a regular expression: `invalid` is a JavaScript
`SyntaxError`; `unsupported` marks a pattern or flag outside the modelled fragment
(back-references, look-around, `\c`, `\x`, `\u`, `\k`, octal escapes and the flags
`m`, `s`, `u`, `y`). -/
inductive RegExpError where
  | invalid (msg : String)
  | unsupported
  deriving DecidableEq, Repr

/-- Pattern tokens. -/
inductive Tok where
  | chr (c : Nat)
  | any
  | bol
  | eol
  | wordB (neg : Bool)
  | cls (neg : Bool) (items : List ClassItem)
  | quant (lo : Nat) (hi : Option Nat)
  | lpar
  | rpar
  | bar
  deriving DecidableEq, Repr

/-- What a backslash escape denotes. -/
inductive Escaped where
  | lit (c : Nat)
  | set (i : ClassItem)
  | boundary (neg : Bool)
  | unsupported
  deriving DecidableEq, Repr

/-- Reading of `\c` (the code unit after the backslash is `c`; `next` is the code
unit after that, if any). `inClass` tells whether the escape stands inside brackets. -/
def readEscape (inClass : Bool) (c : Nat) (next : Option Nat) : Escaped :=
  if c = 100 then .set (.digit false)          -- \d
  else if c = 68 then .set (.digit true)       -- \D
  else if c = 119 then .set (.word false)      -- \w
  else if c = 87 then .set (.word true)        -- \W
  else if c = 115 then .set (.space false)     -- \s
  else if c = 83 then .set (.space true)       -- \S
  else if c = 98 then (if inClass then .lit 8 else .boundary false)   -- \b
  else if c = 66 then (if inClass then .lit 66 else .boundary true)   -- \B
  else if c = 110 then .lit 10                 -- \n
  else if c = 116 then .lit 9                  -- \t
  else if c = 114 then .lit 13                 -- \r
  else if c = 102 then .lit 12                 -- \f
  else if c = 118 then .lit 11                 -- \v
  else if c = 48 then
    (match next with
     | some d => if isDigit d then .unsupported else .lit 0
     | none => .lit 0)
  else if isDigit c then .unsupported          -- \1 .. \9
  else if c = 99 ∨ c = 120 ∨ c = 117 ∨ c = 107 then .unsupported   -- \c \x \u \k
  else .lit c                                  -- identity escape

/-- Atoms of a bracket expression before ranges are formed. -/
inductive ClassAtom where
  | lit (c : Nat)
  | dash
  | set (i : ClassItem)
  deriving DecidableEq, Repr

/-- Reads the atoms of a bracket expression up to the closing `]`; returns them with
the rest of the pattern. -/
def lexClass : JSString → Except RegExpError (List ClassAtom × JSString)
  | [] => .error (.invalid "Unterminated character class")
  | c :: rest =>
    if c = 93 then .ok ([], rest)
    else if c = 92 then
      match rest with
      | [] => .error (.invalid "\\ at end of pattern")
      | e :: rest2 =>
        match readEscape true e rest2.head?, lexClass rest2 with
        | .lit x, .ok (as, r) => .ok (.lit x :: as, r)
        | .set i, .ok (as, r) => .ok (.set i :: as, r)
        | _, .error err => .error err
        | _, _ => .error .unsupported
    else
      match lexClass rest with
      | .ok (as, r) => .ok ((if c = 45 then ClassAtom.dash else ClassAtom.lit c) :: as, r)
      | .error err => .error err

/-- The single code unit an atom stands for, if it is one. -/
def ClassAtom.code? : ClassAtom → Option Nat
  | .lit c => some c
  | .dash => some 45
  | .set _ => none

/-- An atom standing alone as a class item. -/
def ClassAtom.item : ClassAtom → ClassItem
  | .lit c => .single c
  | .dash => .single 45
  | .set i => i

/-- Forms the ranges `a-b` of a bracket expression, left to right. -/
def classItems : List ClassAtom → Except RegExpError (List ClassItem)
  | [] => .ok []
  | [a] => .ok [a.item]
  | [a, b] => .ok [a.item, b.item]
  | a :: .dash :: b :: rest =>
    match classItems rest with
    | .error err => .error err
    | .ok items =>
      match a.code?, b.code? with
      | some lo, some hi =>
        if lo ≤ hi then .ok (.range lo hi :: items)
        else .error (.invalid "Range out of order in character class")
      | _, _ => .ok (a.item :: .single 45 :: b.item :: items)
  | a :: b :: c :: rest =>
    match classItems (b :: c :: rest) with
    | .error err => .error err
    | .ok items => .ok (a.item :: items)

/-- Reads a run of decimal digits; returns its value, whether any digit was read,
and the rest. -/
def lexNat : Nat → Bool → JSString → Nat × Bool × JSString
  | acc, seen, [] => (acc, seen, [])
  | acc, seen, c :: rest =>
    if isDigit c then lexNat (10 * acc + (c - 48)) true rest else (acc, seen, c :: rest)

/-- Reads what follows `{` as a braced quantifier `n}`, `n,}` or `n,m}`. -/
def lexBraces (s : JSString) : Option (Nat × Option Nat × JSString) :=
  match lexNat 0 false s with
  | (_, false, _) => none
  | (lo, true, 125 :: rest) => some (lo, some lo, rest)
  | (lo, true, 44 :: 125 :: rest) => some (lo, none, rest)
  | (lo, true, 44 :: rest) =>
    (match lexNat 0 false rest with
     | (hi, true, 125 :: rest2) => some (lo, some hi, rest2)
     | _ => none)
  | _ => none

/-- Drops the `?` that makes a quantifier lazy: laziness does not change whether a
match exists. -/
def dropLazy : JSString → JSString
  | 63 :: rest => rest
  | s => s

/-- Reads one token: `c` is the first code unit, `rest` what follows it. -/
def lexOne (c : Nat) (rest : JSString) : Except RegExpError (Tok × JSString) :=
  if c = 92 then                                   -- backslash
    match rest with
    | [] => .error (.invalid "\\ at end of pattern")
    | e :: rest2 =>
      match readEscape false e rest2.head? with
      | .lit x => .ok (.chr x, rest2)
      | .set i => .ok (.cls false [i], rest2)
      | .boundary neg => .ok (.wordB neg, rest2)
      | .unsupported => .error .unsupported
  else if c = 91 then                              -- [
    let neg := decide (rest.head? = some 94)
    match lexClass (if neg then rest.tail else rest) with
    | .error err => .error err
    | .ok (atoms, rest2) =>
      match classItems atoms with
      | .error err => .error err
      | .ok items => .ok (.cls neg items, rest2)
  else if c = 40 then                              -- (
    match rest with
    | 63 :: 58 :: rest2 => .ok (.lpar, rest2)      -- (?:
    | 63 :: 61 :: _ => .error .unsupported         -- (?=
    | 63 :: 33 :: _ => .error .unsupported         -- (?!
    | 63 :: 60 :: _ => .error .unsupported         -- (?<
    | 63 :: _ => .error (.invalid "Invalid group")
    | _ => .ok (.lpar, rest)
  else if c = 41 then .ok (.rpar, rest)            -- )
  else if c = 124 then .ok (.bar, rest)            -- |
  else if c = 46 then .ok (.any, rest)             -- .
  else if c = 94 then .ok (.bol, rest)             -- ^
  else if c = 36 then .ok (.eol, rest)             -- $
  else if c = 42 then .ok (.quant 0 none, dropLazy rest)       -- *
  else if c = 43 then .ok (.quant 1 none, dropLazy rest)       -- +
  else if c = 63 then .ok (.quant 0 (some 1), dropLazy rest)   -- ?
  else if c = 123 then                             -- opening brace
    match lexBraces rest with
    | some (lo, some hi, rest2) =>
      if lo ≤ hi then .ok (.quant lo (some hi), dropLazy rest2)
      else .error (.invalid "numbers out of order in quantifier")
    | some (lo, none, rest2) => .ok (.quant lo none, dropLazy rest2)
    | none => .ok (.chr 123, rest)
  else .ok (.chr c, rest)

/-- Tokenizer; each token consumes at least one code unit, so `fuel = length` is
enough. -/
def tokenizeAux : Nat → JSString → Except RegExpError (List Tok)
  | _, [] => .ok []
  | 0, _ :: _ => .error .unsupported
  | fuel + 1, c :: rest =>
    match lexOne c rest with
    | .error err => .error err
    | .ok (t, rest2) =>
      match tokenizeAux fuel rest2 with
      | .error err => .error err
      | .ok ts => .ok (t :: ts)

/-- Tokens of a pattern. -/
def tokenize (s : JSString) : Except RegExpError (List Tok) := tokenizeAux s.length s

/-- Regular expressions of the modelled fragment. -/
inductive Re where
  | eps
  | chr (c : Nat)
  | any
  | bol
  | eol
  | wordB (neg : Bool)
  | cls (neg : Bool) (items : List ClassItem)
  | cat (a b : Re)
  | alt (a b : Re)
  | rep (lo : Nat) (hi : Option Nat) (r : Re)
  deriving DecidableEq, Repr

/-- Concatenation of a sequence of terms. -/
def seqOf : List Re → Re
  | [] => .eps
  | r :: rs => .cat r (seqOf rs)

/-- Disjunction of the alternatives `r`, `rs`. -/
def altOf (r : Re) : List Re → Re
  | [] => r
  | r2 :: rs => .alt r (altOf r2 rs)

/-- A disjunction under construction: the alternatives already closed by `|`
(latest first) and the terms of the current alternative (latest first), each with
a mark telling whether a quantifier may follow it. -/
structure Frame where
  alts : List Re
  cur : List (Re × Bool)
  deriving DecidableEq, Repr

/-- The current alternative of a frame. -/
def Frame.branch (f : Frame) : Re := seqOf (f.cur.reverse.map Prod.fst)

/-- The disjunction a frame stands for. -/
def Frame.close (f : Frame) : Re :=
  match (f.branch :: f.alts).reverse with
  | [] => f.branch
  | r :: rs => altOf r rs

/-- Adds a term to the current alternative. -/
def Frame.push (f : Frame) (r : Re) (quantifiable : Bool) : Frame :=
  { f with cur := (r, quantifiable) :: f.cur }

/-- Parser: `top` is the innermost open group, `stack` the enclosing ones. -/
def parseToks (top : Frame) (stack : List Frame) : List Tok → Except RegExpError Re
  | [] =>
    match stack with
    | [] => .ok top.close
    | _ :: _ => .error (.invalid "Unterminated group")
  | t :: ts =>
    match t with
    | .chr c => parseToks (top.push (.chr c) true) stack ts
    | .any => parseToks (top.push .any true) stack ts
    | .cls neg items => parseToks (top.push (.cls neg items) true) stack ts
    | .bol => parseToks (top.push .bol false) stack ts
    | .eol => parseToks (top.push .eol false) stack ts
    | .wordB neg => parseToks (top.push (.wordB neg) false) stack ts
    | .quant lo hi =>
      (match top.cur with
       | (r, true) :: cur => parseToks { top with cur := (.rep lo hi r, false) :: cur } stack ts
       | _ => .error (.invalid "Nothing to repeat"))
    | .lpar => parseToks ⟨[], []⟩ (top :: stack) ts
    | .rpar =>
      (match stack with
       | [] => .error (.invalid "Unmatched ')'")
       | parent :: stack2 => parseToks (parent.push top.close true) stack2 ts)
    | .bar => parseToks ⟨top.branch :: top.alts, []⟩ stack ts

/-- Parses a pattern. -/
def parsePattern (s : JSString) : Except RegExpError Re :=
  match tokenize s with
  | .error err => .error err
  | .ok ts => parseToks ⟨[], []⟩ [] ts

/-- A position in the subject string: the code unit before it (if any) and what
remains. -/
structure Pos where
  prev : Option Nat
  rest : JSString
  deriving DecidableEq, Repr

/-- Whether two code units are the same for the matcher. -/
def sameChar (canon : Nat → Nat) (ignoreCase : Bool) (a b : Nat) : Bool :=
  if ignoreCase then decide (canon a = canon b) else decide (a = b)

/-- The code units a class item stands for. -/
def ClassItem.has (i : ClassItem) (a : Nat) : Bool :=
  match i with
  | .single c => decide (a = c)
  | .range lo hi => decide (lo ≤ a ∧ a ≤ hi)
  | .digit neg => isDigit a != neg
  | .word neg => isWordChar a != neg
  | .space neg => isWhiteSpace a != neg

/-- Whether the class item has a member that is the same as `ch` for the matcher. -/
def ClassItem.accepts (canon : Nat → Nat) (ignoreCase : Bool) (i : ClassItem) (ch : Nat) :
    Bool :=
  if ignoreCase then (List.range 65536).any (fun a => i.has a && decide (canon a = canon ch))
  else i.has ch

/-- Zero or more repetitions of `step`: `lo` repetitions are required, at most `hi`
are made, and a repetition beyond the required ones must consume input. -/
def iter (step : Pos → List Pos) : Nat → Nat → Option Nat → Pos → List Pos
  | 0, lo, _, p => if lo = 0 then [p] else []
  | fuel + 1, lo, hi, p =>
    if hi = some 0 then [p]
    else if 0 < lo then
      (step p).flatMap (iter step fuel (lo - 1) (hi.map (· - 1)))
    else
      p :: ((step p).filter (fun q => decide (q.rest.length < p.rest.length))).flatMap
        (iter step fuel 0 (hi.map (· - 1)))

/-- Backtracking matcher: all positions at which a match of `r` starting at `p` can
end. -/
def Re.run (canon : Nat → Nat) (ignoreCase : Bool) : Re → Pos → List Pos
  | .eps, p => [p]
  | .chr c, p =>
    (match p.rest with
     | [] => []
     | d :: rest => if sameChar canon ignoreCase c d then [⟨some d, rest⟩] else [])
  | .any, p =>
    (match p.rest with
     | [] => []
     | d :: rest => if isLineTerminator d then [] else [⟨some d, rest⟩])
  | .bol, p => if p.prev = none then [p] else []
  | .eol, p => if p.rest = [] then [p] else []
  | .wordB neg, p =>
    let before := (p.prev.map isWordChar).getD false
    let after := (p.rest.head?.map isWordChar).getD false
    if (before != after) != neg then [p] else []
  | .cls neg items, p =>
    (match p.rest with
     | [] => []
     | d :: rest =>
       if (items.any (fun i => i.accepts canon ignoreCase d)) != neg then [⟨some d, rest⟩]
       else [])
  | .cat a b, p => (Re.run canon ignoreCase a p).flatMap (fun q => Re.run canon ignoreCase b q)
  | .alt a b, p => Re.run canon ignoreCase a p ++ Re.run canon ignoreCase b p
  | .rep lo hi r, p =>
    iter (fun q => Re.run canon ignoreCase r q) (lo + p.rest.length + 1) lo hi p

/-- Whether a match starts at the position `(prev, s)` or later. -/
def searchFrom (canon : Nat → Nat) (ignoreCase : Bool) (r : Re) : Option Nat → JSString → Bool
  | prev, [] => !(r.run canon ignoreCase ⟨prev, []⟩).isEmpty
  | prev, c :: rest =>
    !(r.run canon ignoreCase ⟨prev, c :: rest⟩).isEmpty
      || searchFrom canon ignoreCase r (some c) rest

/-- A `RegExp` object: the compiled pattern and its flags. -/
structure RegExp where
  re : Re
  global : Bool
  ignoreCase : Bool
  deriving DecidableEq, Repr

/-- Reads a flags string. -/
def parseFlags : JSString → Bool → Bool → Except RegExpError (Bool × Bool)
  | [], g, i => .ok (g, i)
  | c :: rest, g, i =>
    if c = 103 then
      (if g then .error (.invalid "Invalid flags") else parseFlags rest true i)
    else if c = 105 then
      (if i then .error (.invalid "Invalid flags") else parseFlags rest g true)
    else if c = 109 ∨ c = 115 ∨ c = 117 ∨ c = 121 then .error .unsupported
    else .error (.invalid "Invalid flags")

/-- The constructor `new RegExp(pattern, flags)`. -/
def RegExp.new (pattern flags : JSString) : Except RegExpError RegExp :=
  match parseFlags flags false false with
  | .error err => .error err
  | .ok (g, i) =>
    match parsePattern pattern with
    | .error err => .error err
    | .ok re => .ok ⟨re, g, i⟩

/-- Whether the regular expression matches somewhere in `s`: a search from index 0, as
made for a newly built object, whose `lastIndex` is 0. -/
def RegExp.test (tbl : Nat → JSString) (r : RegExp) (s : JSString) : Bool :=
  searchFrom (canonicalize tbl) r.ignoreCase r.re none s

/-- The code units matched by `/[-[\]{}()*+?.,\\^$|#\s]/`, the class of `escapeRegex`. -/
def escapeClass : List ClassItem :=
  [.single 45, .single 91, .single 93, .single 123, .single 125, .single 40, .single 41,
   .single 42, .single 43, .single 63, .single 46, .single 44, .single 92, .single 94,
   .single 36, .single 124, .single 35, .space false]

/-- Whether `escapeRegex` escapes the code unit. -/
def needsEscape (c : Nat) : Bool := escapeClass.any (fun i => i.has c)

/-- The function `escapeRegex(text)`:
`text.replace(/[-[\]{}()*+?.,\\^$|#\s]/g, "\\$&")`: every code unit of the class is
replaced by a backslash followed by itself. -/
def escapeRegex : JSString → JSString
  | [] => []
  | c :: rest => if needsEscape c then 92 :: c :: escapeRegex rest else c :: escapeRegex rest

/-- The Unicode table that maps every code unit above ASCII to itself; used to run
examples. -/
def asciiOnly (ch : Nat) : JSString := [ch]

/-! ## Part 2: requests, collaborators and handlers -/

/-- A JavaScript value that is a string or `undefined`. -/
abbrev Val := Option String

/-- The authenticated user of a request (`req.user`). -/
structure User where
  id : String
  username : String
  deriving DecidableEq, Repr

/-- The denormalised author reference `{id, username}`. -/
structure Author where
  id : String
  username : String
  deriving DecidableEq, Repr

/-- A comment document. -/
structure Comment where
  id : String
  text : String
  author : Author
  deriving DecidableEq, Repr

/-- An entry of a listing's comment collection: a reference, or the comment itself
once the collection has been populated. -/
inductive CommentSlot where
  | ref (id : String)
  | doc (c : Comment)
  deriving DecidableEq, Repr

/-- A campground document. -/
structure Campground where
  id : String
  name : Val
  price : Val
  image : Val
  imageId : Val
  description : Val
  author : Author
  comments : List CommentSlot
  deriving DecidableEq, Repr

/-- The object literal `newCampground` handed to `Campground.create`. -/
structure NewCampground where
  name : Val
  price : Val
  image : Val
  imageId : Val
  description : Val
  author : Author
  deriving DecidableEq, Repr

/-- The uploaded file of a request (`req.file`). -/
structure File where
  originalname : JSString
  path : String
  deriving DecidableEq, Repr

/-- The form fields of a request (`req.body`). -/
structure Body where
  name : Val
  price : Val
  description : Val
  deriving DecidableEq, Repr

/-- What a handler reads from a request: `req.query.search` (a string when present),
`req.params.id`, `req.body`, the file sent in the form field `image`, and `req.user`. -/
structure Request where
  search : Option JSString
  id : String
  body : Body
  file : Option File
  user : Option User
  deriving DecidableEq, Repr

/-- The answer of the image host to an upload: `secure_url` and `public_id`. -/
structure UploadResult where
  secure_url : Val
  public_id : Val
  deriving DecidableEq, Repr

/-- The query object of `Campground.find`: `{}` or `{name: regex}`. -/
inductive Filter where
  | all
  | name (regex : RegExp)
  deriving DecidableEq, Repr

/-- The locals handed to a template. -/
inductive ViewData where
  | none
  | index (campgrounds : List Campground) (noMatch : Val)
  | campground (c : Option Campground)
  deriving DecidableEq, Repr

/-- The effects of a request, in the order they happen: calls to the store
(`find`, `findById`, `create`, `save`, `remove`), calls to the image host (`upload`,
`destroy`), `req.flash`, `console.log`, the response (`render`, `redirect`), and an
exception that escapes the handler (`raise`). -/
inductive Event where
  | find (f : Filter)
  | findById (id : String) (populate : Bool)
  | create (doc : NewCampground)
  | save (doc : Campground)
  | remove (doc : Campground)
  | upload (path : String)
  | destroy (imageId : Val)
  | flash (kind msg : String)
  | log (err : Val)
  | render (view : String) (data : ViewData)
  | redirect (url : String)
  | raise (err : String)
  deriving DecidableEq, Repr

/-- The answers of the external collaborators: the document store behind the
`Campground` model and the image host. A failure carries the message of the error.
`ownerLookup` answers the lookup made by the ownership middleware, `findById` the one
made by the handler afterwards. -/
structure World where
  find : Filter → Except String (List Campground)
  findById : String → Except String (Option Campground)
  findByIdPopulated : String → Except String (Option Campground)
  ownerLookup : String → Except String (Option Campground)
  create : NewCampground → Except String Campground
  uploadV1 : String → UploadResult
  uploadV2 : String → Except String UploadResult
  destroy : Val → Except String Unit

/-- The compiled literal `/\.(jpg|jpeg|png|gif)$/i` of `imageFilter`. -/
def imageRegExp : RegExp :=
  { re := .cat (.chr 46)
      (.cat (.alt (seqOf [.chr 106, .chr 112, .chr 103])
              (.alt (seqOf [.chr 106, .chr 112, .chr 101, .chr 103])
                (.alt (seqOf [.chr 112, .chr 110, .chr 103])
                  (seqOf [.chr 103, .chr 105, .chr 102]))))
        (.cat .eol .eps))
    global := false
    ignoreCase := true }

/-- The function `imageFilter(req, file, cb)`: the list of the invocations of `cb`,
each with its two arguments (the error message, if any, and the verdict). -/
def imageFilter (tbl : Nat → JSString) (file : File) : List (Option String × Bool) :=
  if !(imageRegExp.test tbl file.originalname) then
    [(some "Only image files are allowed!", false)]
  else
    [(none, true)]

/-- Stands for the message of the `TypeError` raised by reading a property of
`undefined` or `null`. -/
def nullDeref : String := "TypeError: cannot read property of undefined"

/-- The text of `noMatch` after an empty search. -/
def noMatchMessage : String := "Campground not found, please try again"

/-- INDEX: `router.get("/")`. -/
def indexHandler (w : World) (req : Request) : List Event :=
  match req.search with
  | some (c :: cs) =>
    (match RegExp.new (escapeRegex (c :: cs)) (js "gi") with
     | .error _ => [.raise "SyntaxError"]
     | .ok regex =>
       .find (.name regex) ::
         (match w.find (.name regex) with
          | .error err => [.log (some err)]
          | .ok campgrounds =>
            [.render "campgrounds/index"
              (.index campgrounds (if campgrounds.length < 1 then some noMatchMessage else none))]))
  | _ =>
    .find .all ::
      (match w.find .all with
       | .error err => [.log (some err)]
       | .ok campgrounds => [.render "campgrounds/index" (.index campgrounds none)])

/-- NEW: the body of `router.get("/new")`. -/
def newHandler (_ : Request) : List Event := [.render "campgrounds/new" .none]

/-- CREATE: the body of `router.post("/")`. -/
def createHandler (w : World) (req : Request) : List Event :=
  match req.file with
  | none => [.raise nullDeref]
  | some file =>
    .upload file.path ::
      (let result := w.uploadV1 file.path
       match req.user with
       | none => [.raise nullDeref]
       | some user =>
         let newCampground : NewCampground :=
           { name := req.body.name, price := req.body.price, image := result.secure_url,
             imageId := result.public_id, description := req.body.description,
             author := { id := user.id, username := user.username } }
         .create newCampground ::
           (match w.create newCampground with
            | .error _ => [.flash "error" "Campground not found", .redirect "back"]
            | .ok campground => [.redirect ("/campgrounds/" ++ campground.id)]))

/-- SHOW: `router.get("/:id")`. -/
def showHandler (w : World) (req : Request) : List Event :=
  .findById req.id true ::
    (match w.findByIdPopulated req.id with
     | .error err => [.log (some err)]
     | .ok none => [.log none]
     | .ok (some foundCampground) =>
       [.render "campgrounds/show" (.campground (some foundCampground))])

/-- EDIT: the body of `router.get("/:id/edit")`. -/
def editHandler (w : World) (req : Request) : List Event :=
  .findById req.id false ::
    (match w.findById req.id with
     | .error _ => [.render "campgrounds/edit" (.campground none)]
     | .ok foundCampground => [.render "campgrounds/edit" (.campground foundCampground)])

/-- The tail of the update handler, after the image has been dealt with: lines 136 to
141. -/
def finishUpdate (req : Request) (campground : Campground) : List Event :=
  let saved : Campground :=
    { campground with
      name := req.body.name, price := req.body.price, description := req.body.description }
  [.save saved, .flash "success" "Updated successfully", .redirect ("/campgrounds/" ++ saved.id)]

/-- UPDATE: the body of `router.put("/:id")`. -/
def updateHandler (w : World) (req : Request) : List Event :=
  .findById req.id false ::
    (match w.findById req.id with
     | .error err => [.flash "error" err, .redirect "back"]
     | .ok found =>
       match req.file with
       | some file =>
         (match found with
          | none => [.flash "error" nullDeref, .redirect "back"]
          | some campground =>
            .destroy campground.imageId ::
              (match w.destroy campground.imageId with
               | .error err => [.flash "error" err, .redirect "back"]
               | .ok _ =>
                 .upload file.path ::
                   (match w.uploadV2 file.path with
                    | .error err => [.flash "error" err, .redirect "back"]
                    | .ok result =>
                      finishUpdate req
                        { campground with
                          imageId := result.public_id, image := result.secure_url })))
       | none =>
         (match found with
          | none => [.raise nullDeref]
          | some campground => finishUpdate req campground))

/-- DESTROY: the body of `router.delete("/:id")`. -/
def deleteHandler (w : World) (req : Request) : List Event :=
  .findById req.id false ::
    (match w.findById req.id with
     | .error err => [.flash "error" err, .redirect ("/campgrounds/" ++ req.id)]
     | .ok none => [.flash "error" nullDeref, .redirect "back"]
     | .ok (some campground) =>
       .destroy campground.imageId ::
         (match w.destroy campground.imageId with
          | .error err => [.flash "error" err, .redirect "back"]
          | .ok _ =>
            [.remove campground, .flash "success" "Campground deleted successfully",
             .redirect "/campgrounds"]))

/-- The outcome of a middleware: the effects it performed and, when it called
`next()`, the request it passed on. -/
structure Step where
  trace : List Event
  next : Option Request
  deriving DecidableEq, Repr

/-- A route: the middlewares run in order, each only if the one before passed the
request on, and the handler body runs last. -/
def runRoute (handler : Request → List Event) : List (Request → Step) → Request → List Event
  | [], req => handler req
  | m :: ms, req =>
    (m req).trace ++
      (match (m req).next with
       | none => []
       | some passed => runRoute handler ms passed)

/-- The middleware `upload.single('image')` of the multer library with
`fileFilter: imageFilter`: a request without a file passes; a file is submitted to the
filter, whose error ends the request (`next(err)`), and whose verdict keeps or skips
the file. -/
def uploadSingle (tbl : Nat → JSString) (req : Request) : Step :=
  match req.file with
  | none => ⟨[], some req⟩
  | some file =>
    match imageFilter tbl file with
    | [(none, true)] => ⟨[], some req⟩
    | [(none, false)] => ⟨[], some { req with file := none }⟩
    | [(some err, _)] => ⟨[.raise err], none⟩
    | _ => ⟨[], none⟩

/-- The flash texts of the authorization middleware, which the sources at hand do not
contain. -/
structure MiddlewareText where
  needLogin : String
  notOwner : String
  notFound : String

/-- Modelled from the spec: `middleware.isLoggedIn` (the file `middleware/index.js` is
missing). "requireLogin(request) -> continue | redirect("/login")", with an error
flash. -/
def isLoggedIn (txt : MiddlewareText) (req : Request) : Step :=
  match req.user with
  | some _ => ⟨[], some req⟩
  | none => ⟨[.flash "error" txt.needLogin, .redirect "/login"], none⟩

/-- Modelled from the spec: `middleware.checkCampgroundOwnership` (the file
`middleware/index.js` is missing). "The ownership check loads the resource by id,
compares its author.id to the current session's user id (case: unauthenticated ->
redirect to login with an error flash; authenticated but not owner -> redirect back
with an error flash). No retries; a lookup failure (resource not found) is treated the
same as an authorization failure." -/
def checkCampgroundOwnership (txt : MiddlewareText) (w : World) (req : Request) : Step :=
  match req.user with
  | none => ⟨[.flash "error" txt.needLogin, .redirect "/login"], none⟩
  | some user =>
    match w.ownerLookup req.id with
    | .ok (some campground) =>
      if campground.author.id = user.id then ⟨[.findById req.id false], some req⟩
      else ⟨[.findById req.id false, .flash "error" txt.notOwner, .redirect "back"], none⟩
    | _ => ⟨[.findById req.id false, .flash "error" txt.notFound, .redirect "back"], none⟩

/-- The route `router.get("/")`. -/
def indexRoute (w : World) : Request → List Event := runRoute (indexHandler w) []

/-- The route `router.get("/new", middleware.isLoggedIn, ...)`. -/
def newRoute (txt : MiddlewareText) : Request → List Event :=
  runRoute newHandler [isLoggedIn txt]

/-- The route `router.post("/", upload.single('image'), middleware.isLoggedIn, ...)`. -/
def createRoute (tbl : Nat → JSString) (txt : MiddlewareText) (w : World) :
    Request → List Event :=
  runRoute (createHandler w) [uploadSingle tbl, isLoggedIn txt]

/-- The route `router.get("/:id")`. -/
def showRoute (w : World) : Request → List Event := runRoute (showHandler w) []

/-- The route `router.get("/:id/edit", middleware.checkCampgroundOwnership, ...)`. -/
def editRoute (txt : MiddlewareText) (w : World) : Request → List Event :=
  runRoute (editHandler w) [checkCampgroundOwnership txt w]

/-- The route
`router.put("/:id", upload.single('image'), middleware.checkCampgroundOwnership, ...)`. -/
def updateRoute (tbl : Nat → JSString) (txt : MiddlewareText) (w : World) :
    Request → List Event :=
  runRoute (updateHandler w) [uploadSingle tbl, checkCampgroundOwnership txt w]

/-- The route `router.delete("/:id", middleware.checkCampgroundOwnership, ...)`. -/
def deleteRoute (txt : MiddlewareText) (w : World) : Request → List Event :=
  runRoute (deleteHandler w) [checkCampgroundOwnership txt w]

/-- A write to the document store. -/
def Event.isStoreWrite : Event → Bool
  | .create _ => true
  | .save _ => true
  | .remove _ => true
  | _ => false

/-- A call to the image host. -/
def Event.isHostCall : Event → Bool
  | .upload _ => true
  | .destroy _ => true
  | _ => false

/-- An error flash. -/
def Event.isErrorFlash : Event → Bool
  | .flash kind _ => kind == "error"
  | _ => false


/-! ## Statements of the specification -/

/-- Two code units are the same letter up to case. -/
def SameLetter (tbl : Nat → JSString) (a b : Nat) : Prop :=
  canonicalize tbl a = canonicalize tbl b

/-- The specification of the search: `n` contains `q` as a literal substring up to
letter case. -/
def ContainsIgnoringCase (tbl : Nat → JSString) (n q : JSString) : Prop :=
  ∃ pre mid post, n = pre ++ mid ++ post ∧ List.Forall₂ (SameLetter tbl) mid q

/-- The allow-listed extensions. -/
def imageExtensions : List JSString := [js ".jpg", js ".jpeg", js ".png", js ".gif"]

/-- The specification of the file filter: the name ends, ignoring letter case, with
one of the allow-listed extensions. -/
def EndsWithImageExtension (name : JSString) : Prop :=
  ∃ ext ∈ imageExtensions, ∃ stem tail, name = stem ++ tail ∧ tail.map asciiLower = ext

/-! ## The document store -/

/-- Modelled from the spec: the Document Store behind the `Campground` model (the file
`models/campground.js` and the database are missing). "a schemaless persistent store
holding three document collections [...] addressed by generated identifiers, supporting
pattern-match queries and reference-style population (joining referenced child
documents into a parent on read)". -/
structure Store where
  campgrounds : List Campground
  comments : List Comment
  deriving DecidableEq, Repr

/-- Modelled from the spec: the listing addressed by an identifier. -/
def Store.lookup (s : Store) (id : String) : Option Campground :=
  s.campgrounds.find? (fun c => c.id == id)

/-- Modelled from the spec: population of one entry of a comment collection; a
reference that resolves to no comment is dropped. -/
def Store.resolve (s : Store) : CommentSlot → Option CommentSlot
  | .ref id => (s.comments.find? (fun k => k.id == id)).map CommentSlot.doc
  | .doc k => some (.doc k)

/-- Modelled from the spec: population of the comment collection of a listing. -/
def Store.populate (s : Store) (c : Campground) : Campground :=
  { c with comments := c.comments.filterMap s.resolve }

/-- Modelled from the spec: the document made from `newCampground`, with the generated
identifier `newId` and an empty comment collection, and the store that holds it. -/
def Store.insert (s : Store) (newId : String) (d : NewCampground) : Campground × Store :=
  let doc : Campground :=
    { id := newId, name := d.name, price := d.price, image := d.image, imageId := d.imageId,
      description := d.description, author := d.author, comments := [] }
  (doc, { s with campgrounds := s.campgrounds ++ [doc] })

/-- Modelled from the spec: whether a listing satisfies a query. -/
def Filter.admits (tbl : Nat → JSString) (f : Filter) (c : Campground) : Bool :=
  match f with
  | .all => true
  | .name regex =>
    match c.name with
    | some n => regex.test tbl (js n)
    | none => false

/-- Modelled from the spec: the answers of a store that works, in the state `s`, whose
next generated identifier is `newId`; the image host answers as in `host`. -/
def Store.world (s : Store) (tbl : Nat → JSString) (newId : String) (host : World) : World :=
  { host with
    find := fun f => .ok (s.campgrounds.filter (f.admits tbl))
    findById := fun id => .ok (s.lookup id)
    findByIdPopulated := fun id => .ok ((s.lookup id).map s.populate)
    ownerLookup := fun id => .ok (s.lookup id)
    create := fun d => .ok (s.insert newId d).1 }

/-! ## Sample data -/

/-- A user. -/
def ann : User := ⟨"u1", "ann"⟩

/-- Another user. -/
def bob : User := ⟨"u2", "bob"⟩

/-- A listing created by `ann`. -/
def pineRidge : Campground :=
  { id := "c1", name := some "Pine Ridge", price := some "20",
    image := some "https://img.example/old.jpg", imageId := some "old",
    description := some "quiet", author := ⟨"u1", "ann"⟩, comments := [.ref "k1"] }

/-- The form fields `name`, `price`, `description`. -/
def pineRidgeBody : Body := ⟨some "Pine Ridge", some "20", some "quiet"⟩

/-- An uploaded file with an allow-listed extension. -/
def photo : File := ⟨js "pine.JPG", "/tmp/1pine.JPG"⟩

/-- An uploaded file without an allow-listed extension. -/
def notes : File := ⟨js "notes.txt", "/tmp/1notes.txt"⟩

/-- Flash texts for the authorization middleware. -/
def sampleText : MiddlewareText :=
  ⟨"You need to be logged in", "You do not have permission", "Campground not found"⟩

/-- Collaborators that all answer with success; the store holds `pineRidge`. -/
def calmWorld : World :=
  { find := fun _ => .ok [pineRidge]
    findById := fun _ => .ok (some pineRidge)
    findByIdPopulated := fun _ => .ok (some pineRidge)
    ownerLookup := fun _ => .ok (some pineRidge)
    create := fun d =>
      .ok { id := "c2", name := d.name, price := d.price, image := d.image,
            imageId := d.imageId, description := d.description, author := d.author,
            comments := [] }
    uploadV1 := fun _ => ⟨some "https://img.example/new.jpg", some "new"⟩
    uploadV2 := fun _ => .ok ⟨some "https://img.example/new.jpg", some "new"⟩
    destroy := fun _ => .ok () }

/-- A store whose queries fail. -/
def storeDown : World :=
  { calmWorld with
    find := fun _ => .error "store down"
    findById := fun _ => .error "store down"
    findByIdPopulated := fun _ => .error "store down"
    create := fun _ => .error "store down" }

/-- An image host that refuses to delete. -/
def destroyFails : World := { calmWorld with destroy := fun _ => .error "host down" }

/-- An image host that deletes but refuses the next upload. -/
def uploadFails : World := { calmWorld with uploadV2 := fun _ => .error "host down" }

/-- A request: the search `tent (small)`, the listing id `c1`, the form fields of
Pine Ridge, an image, sent by `ann`. -/
def sampleRequest : Request :=
  { search := some (js "tent (small)"), id := "c1", body := pineRidgeBody,
    file := some photo, user := some ann }

/-- A store that works and holds no listing. -/
def emptyShelf : World := { calmWorld with find := fun _ => .ok [] }

/-- A store that holds no listing, as a state. -/
def emptyStore : Store := ⟨[], []⟩

/-- A list request without a search. -/
def plainRequest : Request := { sampleRequest with search := none }

/-- An update request without a new image. -/
def textOnlyRequest : Request := { sampleRequest with file := none }

/-- An update request by somebody who is not logged in, with a file that is not an
image. -/
def anonymousRequest : Request := { sampleRequest with file := some notes, user := none }

/-- Form fields that differ from the stored ones of `pineRidge`. -/
def cedarBody : Body := ⟨some "Cedar Hollow", some "25", some "windy"⟩

/-- An update request by `ann` with new form fields and a new image. -/
def renameRequest : Request := { sampleRequest with body := cedarBody }

/-- The requester is the recorded author of the listing the request names. -/
def IsAuthor (w : World) (req : Request) : Prop :=
  ∃ user campground, req.user = some user ∧ w.ownerLookup req.id = .ok (some campground) ∧
    campground.author.id = user.id

/-- The upload middleware lets the request through: it carries no file, or a file with
an allow-listed extension. -/
def UploadPasses (req : Request) : Prop :=
  ∀ file, req.file = some file → EndsWithImageExtension file.originalname

/-- An update request by `bob`, who is not the author of the listing, without a file. -/
def bobRequest : Request := { sampleRequest with file := none, user := some bob }

/-- The trace holds no store write and no call to the image host. -/
def Untouched (trace : List Event) : Prop :=
  ∀ e ∈ trace, e.isStoreWrite = false ∧ e.isHostCall = false

/-! ## Lemmas on the regular-expression model -/

/-- The matcher finds a match of `r` starting at `p`. -/
def Accepts (canon : Nat → Nat) (ic : Bool) (r : Re) (p : Pos) : Prop :=
  r.run canon ic p ≠ []

theorem accepts_eps (canon : Nat → Nat) (ic : Bool) (p : Pos) :
    Accepts canon ic .eps p := by
  simp [Accepts, Re.run]

theorem accepts_cat_eps (canon : Nat → Nat) (ic : Bool) (k : Re) (p : Pos) :
    Accepts canon ic (.cat .eps k) p ↔ Accepts canon ic k p := by
  simp [Accepts, Re.run]

theorem accepts_cat_chr (canon : Nat → Nat) (ic : Bool) (c : Nat) (k : Re)
    (prev : Option Nat) (s : JSString) :
    Accepts canon ic (.cat (.chr c) k) ⟨prev, s⟩ ↔
      ∃ d rest, s = d :: rest ∧ sameChar canon ic c d = true ∧
        Accepts canon ic k ⟨some d, rest⟩ := by
  cases s with
  | nil => simp [Accepts, Re.run]
  | cons d rest =>
    by_cases h : sameChar canon ic c d = true
    · simp only [Accepts, Re.run, h, if_true, List.flatMap_cons, List.flatMap_nil,
        List.append_nil, List.cons.injEq]
      constructor
      · intro hk
        exact ⟨d, rest, ⟨rfl, rfl⟩, h, hk⟩
      · rintro ⟨d2, rest2, ⟨rfl, rfl⟩, _, hk⟩
        exact hk
    · have hf : sameChar canon ic c d = false := by simpa using h
      simp only [Accepts, Re.run, hf, List.flatMap_nil, ne_eq, not_true_eq_false,
        List.cons.injEq, false_iff, not_exists, not_and, Bool.false_eq_true, if_false]
      rintro d2 rest2 ⟨rfl, rfl⟩ h2
      exact absurd h2 h

theorem accepts_cat_eol (canon : Nat → Nat) (ic : Bool) (k : Re) (p : Pos) :
    Accepts canon ic (.cat .eol k) p ↔ p.rest = [] ∧ Accepts canon ic k p := by
  by_cases h : p.rest = []
  · simp [Accepts, Re.run, h]
  · simp [Accepts, Re.run, h]

theorem accepts_cat_alt (canon : Nat → Nat) (ic : Bool) (a b k : Re) (p : Pos) :
    Accepts canon ic (.cat (.alt a b) k) p ↔
      Accepts canon ic (.cat a k) p ∨ Accepts canon ic (.cat b k) p := by
  simp only [Accepts, Re.run, List.flatMap_append, ne_eq, List.append_eq_nil]
  tauto

theorem accepts_cat_cat (canon : Nat → Nat) (ic : Bool) (a b k : Re) (p : Pos) :
    Accepts canon ic (.cat (.cat a b) k) p ↔ Accepts canon ic (.cat a (.cat b k)) p := by
  simp only [Accepts, Re.run, List.flatMap_assoc]

theorem accepts_cat_nil (canon : Nat → Nat) (ic : Bool) (a : Re) (p : Pos) :
    Accepts canon ic (.cat a .eps) p ↔ Accepts canon ic a p := by
  simp [Accepts, Re.run]

theorem needsEscape_iff (c : Nat) :
    needsEscape c = true ↔
      (c = 45 ∨ c = 91 ∨ c = 93 ∨ c = 123 ∨ c = 125 ∨ c = 40 ∨ c = 41 ∨ c = 42 ∨ c = 43
        ∨ c = 63 ∨ c = 46 ∨ c = 44 ∨ c = 92 ∨ c = 94 ∨ c = 36 ∨ c = 124 ∨ c = 35
        ∨ (c = 9 ∨ c = 10 ∨ c = 11 ∨ c = 12 ∨ c = 13 ∨ c = 32 ∨ c = 160 ∨ c = 0x1680
          ∨ (0x2000 ≤ c ∧ c ≤ 0x200a) ∨ c = 0x2028 ∨ c = 0x2029 ∨ c = 0x202f ∨ c = 0x205f
          ∨ c = 0x3000 ∨ c = 0xfeff)) := by
  simp [needsEscape, escapeClass, ClassItem.has, isWhiteSpace]

theorem readEscape_of_needsEscape (c : Nat) (next : Option Nat) (h : needsEscape c = true) :
    readEscape false c next = .lit c := by
  rw [needsEscape_iff] at h
  have hd : isDigit c = false := by
    simp only [isDigit, decide_eq_false_iff_not]
    omega
  unfold readEscape
  rw [if_neg (by omega), if_neg (by omega), if_neg (by omega), if_neg (by omega),
    if_neg (by omega), if_neg (by omega), if_neg (by omega), if_neg (by omega),
    if_neg (by omega), if_neg (by omega), if_neg (by omega), if_neg (by omega),
    if_neg (by omega), if_neg (by omega), hd, if_neg (by simp), if_neg (by omega)]

theorem lexOne_escaped (c : Nat) (rest : JSString) (h : needsEscape c = true) :
    lexOne 92 (c :: rest) = .ok (.chr c, rest) := by
  simp [lexOne, readEscape_of_needsEscape c _ h]

theorem lexOne_plain (c : Nat) (rest : JSString) (h : needsEscape c = false) :
    lexOne c rest = .ok (.chr c, rest) := by
  have h2 : ¬ (needsEscape c = true) := by simp [h]
  rw [needsEscape_iff] at h2
  unfold lexOne
  rw [if_neg (by omega), if_neg (by omega), if_neg (by omega), if_neg (by omega),
    if_neg (by omega), if_neg (by omega), if_neg (by omega), if_neg (by omega),
    if_neg (by omega), if_neg (by omega), if_neg (by omega), if_neg (by omega)]

theorem tokenizeAux_escapeRegex (q : JSString) :
    ∀ fuel, (escapeRegex q).length ≤ fuel →
      tokenizeAux fuel (escapeRegex q) = .ok (q.map Tok.chr) := by
  induction q with
  | nil => intro fuel _; cases fuel <;> rfl
  | cons c q ih =>
    intro fuel hfuel
    by_cases h : needsEscape c = true
    · simp only [escapeRegex, h, if_true, List.length_cons] at hfuel ⊢
      obtain ⟨fuel2, rfl⟩ : ∃ k, fuel = k + 1 := ⟨fuel - 1, by omega⟩
      simp only [tokenizeAux, lexOne_escaped c _ h, ih fuel2 (by omega), List.map_cons]
    · have hf : needsEscape c = false := by simpa using h
      simp only [escapeRegex, hf, Bool.false_eq_true, if_false, List.length_cons] at hfuel ⊢
      obtain ⟨fuel2, rfl⟩ : ∃ k, fuel = k + 1 := ⟨fuel - 1, by omega⟩
      simp only [tokenizeAux, lexOne_plain c _ hf, ih fuel2 (by omega), List.map_cons]

theorem parseToks_chars (q : JSString) :
    ∀ top : Frame, parseToks top [] (q.map Tok.chr) =
      .ok (Frame.close { top with cur := (q.map (fun c => (Re.chr c, true))).reverse ++ top.cur }) := by
  induction q with
  | nil => intro top; simp [parseToks]
  | cons c q ih =>
    intro top
    simp only [List.map_cons, parseToks, ih, Frame.push, List.reverse_cons, List.append_assoc,
      List.singleton_append]

theorem parsePattern_escapeRegex (q : JSString) :
    parsePattern (escapeRegex q) = .ok (seqOf (q.map Re.chr)) := by
  simp only [parsePattern, tokenize, tokenizeAux_escapeRegex q _ (le_refl _), parseToks_chars]
  simp [Frame.close, Frame.branch, altOf, List.map_map, Function.comp_def]

theorem accepts_literal (canon : Nat → Nat) (q : JSString) :
    ∀ (prev : Option Nat) (s : JSString),
      Accepts canon true (seqOf (q.map Re.chr)) ⟨prev, s⟩ ↔
        ∃ mid post, s = mid ++ post ∧ List.Forall₂ (fun a b => canon a = canon b) mid q := by
  induction q with
  | nil =>
    intro prev s
    simp only [List.map_nil, seqOf, accepts_eps, true_iff]
    exact ⟨[], s, rfl, List.Forall₂.nil⟩
  | cons c q ih =>
    intro prev s
    simp only [List.map_cons, seqOf, accepts_cat_chr, ih]
    constructor
    · rintro ⟨d, rest, rfl, hcd, mid, post, rfl, hmid⟩
      refine ⟨d :: mid, post, rfl, List.Forall₂.cons ?_ hmid⟩
      simpa [sameChar, eq_comm] using hcd
    · rintro ⟨mid, post, rfl, hmid⟩
      cases hmid with
      | cons hd htl =>
        rename_i d mid2
        refine ⟨d, mid2 ++ post, rfl, ?_, mid2, post, rfl, htl⟩
        simpa [sameChar, eq_comm] using hd

theorem searchFrom_iff (canon : Nat → Nat) (ic : Bool) (r : Re) (Q : JSString → Prop)
    (hQ : ∀ prev s, Accepts canon ic r ⟨prev, s⟩ ↔ Q s) :
    ∀ (s : JSString) (prev : Option Nat),
      searchFrom canon ic r prev s = true ↔ ∃ pre suf, s = pre ++ suf ∧ Q suf := by
  intro s
  induction s with
  | nil =>
    intro prev
    have := hQ prev []
    simp only [Accepts, ne_eq] at this
    simp only [searchFrom, Bool.not_eq_true', List.isEmpty_eq_false, ne_eq]
    rw [this]
    constructor
    · intro h; exact ⟨[], [], rfl, h⟩
    · rintro ⟨pre, suf, h, hq⟩
      have : suf = [] := by
        have := congrArg List.length h
        simp at this
        exact List.length_eq_zero.mp (by omega)
      subst this; exact hq
  | cons c rest ih =>
    intro prev
    have := hQ prev (c :: rest)
    simp only [Accepts, ne_eq] at this
    simp only [searchFrom, Bool.or_eq_true, Bool.not_eq_true', List.isEmpty_eq_false, ne_eq, ih]
    rw [this]
    constructor
    · rintro (h | ⟨pre, suf, rfl, hq⟩)
      · exact ⟨[], c :: rest, rfl, h⟩
      · exact ⟨c :: pre, suf, rfl, hq⟩
    · rintro ⟨pre, suf, h, hq⟩
      cases pre with
      | nil => left; simp at h; subst h; exact hq
      | cons d pre =>
        right
        simp at h
        exact ⟨pre, suf, h.2, hq⟩

theorem canonicalize_ascii (tbl : Nat → JSString) (c : Nat) (h : c < 128) :
    canonicalize tbl c = asciiUpper c := by
  have h2 : ¬ (128 ≤ c ∧ asciiUpper c < 128) := by omega
  simp [canonicalize, toUpperCase, h, h2]

theorem canonicalize_ge (tbl : Nat → JSString) (d : Nat) (h : 128 ≤ d) :
    128 ≤ canonicalize tbl d := by
  have h2 : ¬ d < 128 := by omega
  simp only [canonicalize, toUpperCase, h2, if_false]
  split
  · split <;> omega
  · exact h

theorem sameChar_lower_iff (tbl : Nat → JSString) (c d : Nat) (hc : c < 128)
    (hl : ¬ (65 ≤ c ∧ c ≤ 90)) :
    sameChar (canonicalize tbl) true c d = true ↔ asciiLower d = c := by
  simp only [sameChar, if_true, decide_eq_true_eq, canonicalize_ascii tbl c hc]
  by_cases hd : d < 128
  · rw [canonicalize_ascii tbl d hd]
    unfold asciiUpper asciiLower
    split <;> split <;> split <;> omega
  · have := canonicalize_ge tbl d (by omega)
    unfold asciiUpper asciiLower
    split <;> split <;> omega

theorem imageExtensions_eq :
    imageExtensions =
      [[46, 106, 112, 103], [46, 106, 112, 101, 103], [46, 112, 110, 103], [46, 103, 105, 102]] := by
  decide

theorem accepts_imageRegExp (tbl : Nat → JSString) (prev : Option Nat) (s : JSString) :
    Accepts (canonicalize tbl) true imageRegExp.re ⟨prev, s⟩ ↔
      ∃ ext ∈ imageExtensions, s.map asciiLower = ext := by
  have h46 := fun d => sameChar_lower_iff tbl 46 d (by omega) (by omega)
  have h106 := fun d => sameChar_lower_iff tbl 106 d (by omega) (by omega)
  have h112 := fun d => sameChar_lower_iff tbl 112 d (by omega) (by omega)
  have h103 := fun d => sameChar_lower_iff tbl 103 d (by omega) (by omega)
  have h101 := fun d => sameChar_lower_iff tbl 101 d (by omega) (by omega)
  have h110 := fun d => sameChar_lower_iff tbl 110 d (by omega) (by omega)
  have h105 := fun d => sameChar_lower_iff tbl 105 d (by omega) (by omega)
  have h102 := fun d => sameChar_lower_iff tbl 102 d (by omega) (by omega)
  simp only [imageRegExp, seqOf, accepts_cat_chr, accepts_cat_alt, accepts_cat_cat,
    accepts_cat_eps, accepts_cat_eol, accepts_eps, and_true, h46, h106, h112, h103, h101,
    h110, h105, h102, imageExtensions_eq, List.mem_cons, List.mem_singleton, exists_eq_or_imp,
    exists_eq_left, List.not_mem_nil, false_and, exists_false, or_false]
  constructor
  · rintro ⟨d0, r0, rfl, e0, h⟩
    rcases h with h | h | h | h
    · obtain ⟨d1, r1, rfl, e1, d2, r2, rfl, e2, d3, r3, rfl, e3, rfl⟩ := h
      left; simp [e0, e1, e2, e3]
    · obtain ⟨d1, r1, rfl, e1, d2, r2, rfl, e2, d3, r3, rfl, e3, d4, r4, rfl, e4, rfl⟩ := h
      right; left; simp [e0, e1, e2, e3, e4]
    · obtain ⟨d1, r1, rfl, e1, d2, r2, rfl, e2, d3, r3, rfl, e3, rfl⟩ := h
      right; right; left; simp [e0, e1, e2, e3]
    · obtain ⟨d1, r1, rfl, e1, d2, r2, rfl, e2, d3, r3, rfl, e3, rfl⟩ := h
      right; right; right; simp [e0, e1, e2, e3]
  · intro h
    rcases h with h | h | h | h
    · obtain ⟨d0, r0, rfl, e0, h⟩ := List.map_eq_cons_iff.mp h
      obtain ⟨d1, r1, rfl, e1, h⟩ := List.map_eq_cons_iff.mp h
      obtain ⟨d2, r2, rfl, e2, h⟩ := List.map_eq_cons_iff.mp h
      obtain ⟨d3, r3, rfl, e3, h⟩ := List.map_eq_cons_iff.mp h
      have := List.map_eq_nil_iff.mp h
      subst this
      exact ⟨d0, _, rfl, e0, Or.inl ⟨d1, _, rfl, e1, d2, _, rfl, e2, d3, _, rfl, e3, rfl⟩⟩
    · obtain ⟨d0, r0, rfl, e0, h⟩ := List.map_eq_cons_iff.mp h
      obtain ⟨d1, r1, rfl, e1, h⟩ := List.map_eq_cons_iff.mp h
      obtain ⟨d2, r2, rfl, e2, h⟩ := List.map_eq_cons_iff.mp h
      obtain ⟨d3, r3, rfl, e3, h⟩ := List.map_eq_cons_iff.mp h
      obtain ⟨d4, r4, rfl, e4, h⟩ := List.map_eq_cons_iff.mp h
      have := List.map_eq_nil_iff.mp h
      subst this
      exact ⟨d0, _, rfl, e0,
        Or.inr (Or.inl ⟨d1, _, rfl, e1, d2, _, rfl, e2, d3, _, rfl, e3, d4, _, rfl, e4, rfl⟩)⟩
    · obtain ⟨d0, r0, rfl, e0, h⟩ := List.map_eq_cons_iff.mp h
      obtain ⟨d1, r1, rfl, e1, h⟩ := List.map_eq_cons_iff.mp h
      obtain ⟨d2, r2, rfl, e2, h⟩ := List.map_eq_cons_iff.mp h
      obtain ⟨d3, r3, rfl, e3, h⟩ := List.map_eq_cons_iff.mp h
      have := List.map_eq_nil_iff.mp h
      subst this
      exact ⟨d0, _, rfl, e0,
        Or.inr (Or.inr (Or.inl ⟨d1, _, rfl, e1, d2, _, rfl, e2, d3, _, rfl, e3, rfl⟩))⟩
    · obtain ⟨d0, r0, rfl, e0, h⟩ := List.map_eq_cons_iff.mp h
      obtain ⟨d1, r1, rfl, e1, h⟩ := List.map_eq_cons_iff.mp h
      obtain ⟨d2, r2, rfl, e2, h⟩ := List.map_eq_cons_iff.mp h
      obtain ⟨d3, r3, rfl, e3, h⟩ := List.map_eq_cons_iff.mp h
      have := List.map_eq_nil_iff.mp h
      subst this
      exact ⟨d0, _, rfl, e0,
        Or.inr (Or.inr (Or.inr ⟨d1, _, rfl, e1, d2, _, rfl, e2, d3, _, rfl, e3, rfl⟩))⟩

theorem imageRegExp_test_iff (tbl : Nat → JSString) (name : JSString) :
    imageRegExp.test tbl name = true ↔ EndsWithImageExtension name := by
  unfold RegExp.test EndsWithImageExtension
  rw [show imageRegExp.ignoreCase = true from rfl,
    searchFrom_iff (canonicalize tbl) true imageRegExp.re
      (fun s => ∃ ext ∈ imageExtensions, s.map asciiLower = ext)
      (fun prev s => accepts_imageRegExp tbl prev s)]
  constructor
  · rintro ⟨stem, tail, rfl, ext, hext, htail⟩
    exact ⟨ext, hext, stem, tail, rfl, htail⟩
  · rintro ⟨ext, hext, stem, tail, rfl, htail⟩
    exact ⟨stem, tail, rfl, ext, hext, htail⟩

theorem imageRegExp_source :
    RegExp.new (js "\\.(jpg|jpeg|png|gif)$") (js "i") = .ok imageRegExp := rfl

theorem escapeClass_source :
    tokenize (js "[-[\\]\x7b\x7d()*+?.,\\\\^$|#\\s]") = .ok [.cls false escapeClass] := rfl

theorem parseFlags_gi : parseFlags (js "gi") false false = .ok (true, true) := rfl

theorem regExp_escapeRegex (q : JSString) :
    RegExp.new (escapeRegex q) (js "gi") = .ok ⟨seqOf (q.map Re.chr), true, true⟩ := by
  simp only [RegExp.new, parseFlags_gi, parsePattern_escapeRegex]

theorem literal_test_iff (tbl : Nat → JSString) (q n : JSString) :
    RegExp.test tbl ⟨seqOf (q.map Re.chr), true, true⟩ n = true ↔
      ContainsIgnoringCase tbl n q := by
  unfold RegExp.test ContainsIgnoringCase
  rw [searchFrom_iff (canonicalize tbl) true (seqOf (q.map Re.chr))
    (fun s => ∃ mid post, s = mid ++ post ∧ List.Forall₂ (SameLetter tbl) mid q)
    (fun prev s => accepts_literal (canonicalize tbl) q prev s)]
  constructor
  · rintro ⟨pre, suf, rfl, mid, post, rfl, h⟩
    exact ⟨pre, mid, post, by simp, h⟩
  · rintro ⟨pre, mid, post, rfl, h⟩
    exact ⟨pre, mid ++ post, by simp, mid, post, rfl, h⟩

theorem contains_length_le (tbl : Nat → JSString) (n q : JSString)
    (h : ContainsIgnoringCase tbl n q) : q.length ≤ n.length := by
  obtain ⟨pre, mid, post, rfl, hmid⟩ := h
  have := hmid.length_eq
  simp only [List.length_append]
  omega

theorem imageFilter_accepts (tbl : Nat → JSString) (file : File)
    (h : EndsWithImageExtension file.originalname) : imageFilter tbl file = [(none, true)] := by
  have ht := (imageRegExp_test_iff tbl file.originalname).mpr h
  simp [imageFilter, ht]

theorem imageFilter_rejects (tbl : Nat → JSString) (file : File)
    (h : ¬ EndsWithImageExtension file.originalname) :
    imageFilter tbl file = [(some "Only image files are allowed!", false)] := by
  have ht : imageRegExp.test tbl file.originalname = false := by
    cases hc : imageRegExp.test tbl file.originalname with
    | false => rfl
    | true => exact absurd ((imageRegExp_test_iff tbl file.originalname).mp hc) h
  simp [imageFilter, ht]

theorem uploadSingle_rejects (tbl : Nat → JSString) (req : Request) (file : File)
    (hf : req.file = some file) (h : ¬ EndsWithImageExtension file.originalname) :
    uploadSingle tbl req = ⟨[.raise "Only image files are allowed!"], none⟩ := by
  simp only [uploadSingle, hf, imageFilter_rejects tbl file h]

theorem uploadSingle_accepts (tbl : Nat → JSString) (req : Request) (file : File)
    (hf : req.file = some file) (h : EndsWithImageExtension file.originalname) :
    uploadSingle tbl req = ⟨[], some req⟩ := by
  simp only [uploadSingle, hf, imageFilter_accepts tbl file h]

theorem uploadSingle_no_file (tbl : Nat → JSString) (req : Request) (hf : req.file = none) :
    uploadSingle tbl req = ⟨[], some req⟩ := by
  simp only [uploadSingle, hf]

theorem notes_not_image : ¬ EndsWithImageExtension notes.originalname := by
  rw [← imageRegExp_test_iff asciiOnly]
  decide

theorem photo_is_image : EndsWithImageExtension photo.originalname := by
  rw [← imageRegExp_test_iff asciiOnly]
  decide

theorem untouched_raise (msg : String) : Untouched [.raise msg] := by
  intro e he
  simp only [List.mem_singleton] at he
  subst he
  exact ⟨rfl, rfl⟩

theorem mem_before_of_second {α : Type} (a b x : α) (rest before after : List α) (hax : a ≠ x)
    (hbx : b ≠ x) (h : a :: b :: rest = before ++ x :: after) : b ∈ before := by
  match before, h with
  | [], h =>
    simp only [List.nil_append, List.cons.injEq] at h
    exact absurd h.1 hax
  | [_], h =>
    simp only [List.cons_append, List.nil_append, List.cons.injEq] at h
    exact absurd h.2.1 hbx
  | _ :: b2 :: _, h =>
    simp only [List.cons_append, List.cons.injEq] at h
    simp [h.2.1]

theorem updateHandler_lookup_error (w : World) (req : Request) (err : String)
    (h : w.findById req.id = .error err) :
    updateHandler w req = [.findById req.id false, .flash "error" err, .redirect "back"] := by
  simp only [updateHandler, h]

theorem updateHandler_destroy_error (w : World) (req : Request) (file : File)
    (campground : Campground) (err : String) (hf : req.file = some file)
    (h : w.findById req.id = .ok (some campground))
    (hd : w.destroy campground.imageId = .error err) :
    updateHandler w req =
      [.findById req.id false, .destroy campground.imageId, .flash "error" err,
       .redirect "back"] := by
  simp only [updateHandler, h, hf, hd]

theorem updateHandler_upload_error (w : World) (req : Request) (file : File)
    (campground : Campground) (err : String) (hf : req.file = some file)
    (h : w.findById req.id = .ok (some campground))
    (hd : w.destroy campground.imageId = .ok ())
    (hu : w.uploadV2 file.path = .error err) :
    updateHandler w req =
      [.findById req.id false, .destroy campground.imageId, .upload file.path,
       .flash "error" err, .redirect "back"] := by
  simp only [updateHandler, h, hf, hd, hu]

theorem updateHandler_with_file (w : World) (req : Request) (file : File)
    (campground : Campground) (hf : req.file = some file)
    (h : w.findById req.id = .ok (some campground)) :
    ∃ rest, updateHandler w req =
      .findById req.id false :: .destroy campground.imageId :: rest := by
  simp only [updateHandler, h, hf]
  exact ⟨_, rfl⟩

theorem deleteHandler_lookup_error (w : World) (req : Request) (err : String)
    (h : w.findById req.id = .error err) :
    deleteHandler w req =
      [.findById req.id false, .flash "error" err, .redirect ("/campgrounds/" ++ req.id)] := by
  simp only [deleteHandler, h]

theorem deleteHandler_destroy_error (w : World) (req : Request) (campground : Campground)
    (err : String) (h : w.findById req.id = .ok (some campground))
    (hd : w.destroy campground.imageId = .error err) :
    deleteHandler w req =
      [.findById req.id false, .destroy campground.imageId, .flash "error" err,
       .redirect "back"] := by
  simp only [deleteHandler, h, hd]

theorem indexHandler_search (w : World) (req : Request) (q : JSString)
    (hs : req.search = some q) (hq : q ≠ []) :
    indexHandler w req =
      .find (.name ⟨seqOf (q.map Re.chr), true, true⟩) ::
        (match w.find (.name ⟨seqOf (q.map Re.chr), true, true⟩) with
         | .error err => [.log (some err)]
         | .ok campgrounds =>
           [.render "campgrounds/index"
             (.index campgrounds
               (if campgrounds.length < 1 then some noMatchMessage else none))]) := by
  cases q with
  | nil => exact absurd rfl hq
  | cons c cs => simp only [indexHandler, hs, regExp_escapeRegex]

theorem indexHandler_no_search (w : World) (req : Request)
    (hs : req.search = none ∨ req.search = some []) :
    indexHandler w req =
      .find .all ::
        (match w.find .all with
         | .error err => [.log (some err)]
         | .ok campgrounds => [.render "campgrounds/index" (.index campgrounds none)]) := by
  rcases hs with hs | hs <;> simp only [indexHandler, hs]

theorem createHandler_run (w : World) (req : Request) (file : File) (user : User)
    (hf : req.file = some file) (hu : req.user = some user) :
    createHandler w req =
      .upload file.path ::
        .create
          { name := req.body.name, price := req.body.price,
            image := (w.uploadV1 file.path).secure_url,
            imageId := (w.uploadV1 file.path).public_id,
            description := req.body.description,
            author := { id := user.id, username := user.username } } ::
        (match w.create
            { name := req.body.name, price := req.body.price,
              image := (w.uploadV1 file.path).secure_url,
              imageId := (w.uploadV1 file.path).public_id,
              description := req.body.description,
              author := { id := user.id, username := user.username } } with
         | .error _ => [.flash "error" "Campground not found", .redirect "back"]
         | .ok campground => [.redirect ("/campgrounds/" ++ campground.id)]) := by
  simp only [createHandler, hf, hu]

theorem lookup_insert (s : Store) (newId : String) (d : NewCampground)
    (hfresh : s.lookup newId = none) :
    (s.insert newId d).2.lookup newId = some (s.insert newId d).1 := by
  simp only [Store.lookup] at hfresh
  simp [Store.lookup, Store.insert, List.find?_append, hfresh]

theorem populate_insert (s s2 : Store) (newId : String) (d : NewCampground) :
    s2.populate (s.insert newId d).1 = (s.insert newId d).1 := by
  simp [Store.populate, Store.insert]

theorem uploadSingle_passes (tbl : Nat → JSString) (req : Request) (h : UploadPasses req) :
    uploadSingle tbl req = ⟨[], some req⟩ := by
  cases hf : req.file with
  | none => exact uploadSingle_no_file tbl req hf
  | some file => exact uploadSingle_accepts tbl req file hf (h file hf)

theorem uploadSingle_blocks (tbl : Nat → JSString) (req : Request) (h : ¬ UploadPasses req) :
    uploadSingle tbl req = ⟨[.raise "Only image files are allowed!"], none⟩ := by
  simp only [UploadPasses, not_forall] at h
  obtain ⟨file, hf, hn⟩ := h
  exact uploadSingle_rejects tbl req file hf hn

theorem check_author (txt : MiddlewareText) (w : World) (req : Request) (h : IsAuthor w req) :
    checkCampgroundOwnership txt w req = ⟨[.findById req.id false], some req⟩ := by
  obtain ⟨user, campground, hu, hl, hid⟩ := h
  simp only [checkCampgroundOwnership, hu, hl, hid, if_true]

theorem check_anonymous (txt : MiddlewareText) (w : World) (req : Request)
    (h : req.user = none) :
    checkCampgroundOwnership txt w req =
      ⟨[.flash "error" txt.needLogin, .redirect "/login"], none⟩ := by
  simp only [checkCampgroundOwnership, h]

theorem check_other (txt : MiddlewareText) (w : World) (req : Request) (user : User)
    (hu : req.user = some user) (h : ¬ IsAuthor w req) :
    ∃ msg, checkCampgroundOwnership txt w req =
      ⟨[.findById req.id false, .flash "error" msg, .redirect "back"], none⟩ := by
  simp only [checkCampgroundOwnership, hu]
  cases hl : w.ownerLookup req.id with
  | error err => exact ⟨txt.notFound, rfl⟩
  | ok found =>
    cases found with
    | none => exact ⟨txt.notFound, rfl⟩
    | some campground =>
      have hne : ¬ campground.author.id = user.id := fun hid =>
        h ⟨user, campground, hu, hl, hid⟩
      simp only [hne, if_false]
      exact ⟨txt.notOwner, rfl⟩

theorem untouched_refusal (id msg : String) :
    Untouched [.findById id false, .flash "error" msg, .redirect "back"] := by
  intro e he
  simp only [List.mem_cons, List.mem_singleton, List.not_mem_nil, or_false] at he
  rcases he with rfl | rfl | rfl <;> exact ⟨rfl, rfl⟩

theorem untouched_login (msg : String) :
    Untouched [.flash "error" msg, .redirect "/login"] := by
  intro e he
  simp only [List.mem_cons, List.mem_singleton, List.not_mem_nil, or_false] at he
  rcases he with rfl | rfl <;> exact ⟨rfl, rfl⟩

theorem check_denied_untouched (txt : MiddlewareText) (w : World) (req : Request)
    (h : ¬ IsAuthor w req) :
    (checkCampgroundOwnership txt w req).next = none ∧
      Untouched (checkCampgroundOwnership txt w req).trace := by
  cases hu : req.user with
  | none =>
    rw [check_anonymous txt w req hu]
    exact ⟨rfl, untouched_login _⟩
  | some user =>
    obtain ⟨msg, hm⟩ := check_other txt w req user hu h
    rw [hm]
    exact ⟨rfl, untouched_refusal _ _⟩

theorem bob_is_not_author : ¬ IsAuthor calmWorld bobRequest := by
  rintro ⟨user, campground, hu, hl, hid⟩
  cases hu
  cases hl
  exact absurd hid (by decide)

theorem anonymous_upload_blocked : ¬ UploadPasses anonymousRequest := by
  intro h
  exact notes_not_image (h notes rfl)

theorem unescaped_group_is_not_literal :
    (RegExp.new (js "tent (small)") (js "gi")).toOption.map
      (fun r => r.test asciiOnly (js "tent small")) = some true := by
  decide

/-! ## The claims -/

/-- C1: for every non-empty search string `q` of a list request and every listing name
`n`, the construction `new RegExp(escapeRegex(q), 'gi')` succeeds, its result is the
filter the index handler hands to the store, and it matches `n` exactly when `n` contains
`q` as a literal substring up to letter case. -/
theorem search_filter_is_literal (tbl : Nat → JSString) (w : World) (req : Request)
    (q n : JSString) (hs : req.search = some q) (hq : q ≠ []) :
    ∃ regex, RegExp.new (escapeRegex q) (js "gi") = .ok regex ∧
      (indexHandler w req).head? = some (.find (.name regex)) ∧
      (regex.test tbl n = true ↔ ContainsIgnoringCase tbl n q) := by
  refine ⟨⟨seqOf (q.map Re.chr), true, true⟩, regExp_escapeRegex q, ?_, literal_test_iff tbl q n⟩
  cases q with
  | nil => exact absurd rfl hq
  | cons c cs =>
    simp only [indexHandler, hs, regExp_escapeRegex, List.head?_cons]

/-- The search `tent (small)` builds without error and does not match the name
`tent small`. -/
theorem search_filter_is_literal_witness :
    ∃ regex, RegExp.new (escapeRegex (js "tent (small)")) (js "gi") = .ok regex ∧
      (indexHandler calmWorld sampleRequest).head? = some (.find (.name regex)) ∧
      regex.test asciiOnly (js "tent small") = false := by
  obtain ⟨regex, h1, h2, h3⟩ :=
    search_filter_is_literal asciiOnly calmWorld sampleRequest (js "tent (small)")
      (js "tent small") rfl (by decide)
  refine ⟨regex, h1, h2, ?_⟩
  cases ht : regex.test asciiOnly (js "tent small") with
  | false => rfl
  | true =>
    have := contains_length_le _ _ _ (h3.mp ht)
    exact absurd this (by decide)

/-- C3: `imageFilter` accepts a file (calls back with no error and `true`) exactly when
its original name ends, ignoring letter case, with `.jpg`, `.jpeg`, `.png` or `.gif`;
every other file gets the error `Only image files are allowed!` and `false`; the callback
is invoked exactly once; and a create request with a rejected file ends with that error,
before any upload to the image host and any store write. -/
theorem imageFilter_allow_list (tbl : Nat → JSString) (file : File) :
    (imageFilter tbl file = [(none, true)] ↔ EndsWithImageExtension file.originalname) ∧
    (¬ EndsWithImageExtension file.originalname →
      imageFilter tbl file = [(some "Only image files are allowed!", false)]) ∧
    (imageFilter tbl file).length = 1 ∧
    (¬ EndsWithImageExtension file.originalname →
      ∀ (txt : MiddlewareText) (w : World) (req : Request), req.file = some file →
        createRoute tbl txt w req = [.raise "Only image files are allowed!"] ∧
        Untouched (createRoute tbl txt w req)) := by
  refine ⟨⟨?_, imageFilter_accepts tbl file⟩, imageFilter_rejects tbl file, ?_, ?_⟩
  · intro h
    by_contra hn
    rw [imageFilter_rejects tbl file hn] at h
    simp at h
  · by_cases h : EndsWithImageExtension file.originalname
    · rw [imageFilter_accepts tbl file h]; rfl
    · rw [imageFilter_rejects tbl file h]; rfl
  · intro h txt w req hf
    have hr : createRoute tbl txt w req = [.raise "Only image files are allowed!"] := by
      simp only [createRoute, runRoute, uploadSingle_rejects tbl req file hf h,
        List.append_nil]
    rw [hr]
    exact ⟨rfl, untouched_raise _⟩

/-- The file `notes.txt` is rejected, with a create request that carries it; the file
`pine.JPG` is accepted. -/
theorem imageFilter_allow_list_witness :
    imageFilter asciiOnly notes = [(some "Only image files are allowed!", false)] ∧
    createRoute asciiOnly sampleText calmWorld { sampleRequest with file := some notes } =
      [.raise "Only image files are allowed!"] ∧
    imageFilter asciiOnly photo = [(none, true)] :=
  ⟨(imageFilter_allow_list asciiOnly notes).2.1 notes_not_image,
   ((imageFilter_allow_list asciiOnly notes).2.2.2 notes_not_image sampleText calmWorld
      { sampleRequest with file := some notes } rfl).1,
   (imageFilter_allow_list asciiOnly photo).1.mpr photo_is_image⟩

/-- C2 (the code at the failing input): a create request without a file, sent by a
logged-in user, passes both middlewares and the handler body raises a `TypeError` on
`req.file.path`; no error flash is set and no response is sent by the handler. -/
theorem create_without_file_raises (tbl : Nat → JSString) (txt : MiddlewareText) (w : World)
    (search : Option JSString) (id : String) (body : Body) (user : User) :
    createRoute tbl txt w ⟨search, id, body, none, some user⟩ = [.raise nullDeref] := by
  simp [createRoute, runRoute, uploadSingle, isLoggedIn, createHandler]

/-- C4: for every delete request whose listing is loaded, the hosted asset of the
listing is deleted before the document is removed; when the asset deletion fails the
document is not removed, the error flash carries the failure message and the response
redirects back; when it succeeds the document is removed exactly once, and the response
redirects to `/campgrounds` with a success flash. -/
theorem delete_asset_before_document (w : World) (req : Request) (campground : Campground)
    (h : w.findById req.id = .ok (some campground)) :
    (∀ err, w.destroy campground.imageId = .error err →
      deleteHandler w req =
        [.findById req.id false, .destroy campground.imageId, .flash "error" err,
         .redirect "back"]) ∧
    (w.destroy campground.imageId = .ok () →
      deleteHandler w req =
        [.findById req.id false, .destroy campground.imageId, .remove campground,
         .flash "success" "Campground deleted successfully", .redirect "/campgrounds"]) ∧
    (∀ doc before after, deleteHandler w req = before ++ .remove doc :: after →
      Event.destroy campground.imageId ∈ before ∧ w.destroy campground.imageId = .ok () ∧
      doc = campground ∧ (∀ e ∈ before ++ after, e.isStoreWrite = false)) := by
  cases hd : w.destroy campground.imageId with
  | error err =>
    have ht : deleteHandler w req =
        [.findById req.id false, .destroy campground.imageId, .flash "error" err,
         .redirect "back"] := by
      simp only [deleteHandler, h, hd]
    refine ⟨?_, ?_, ?_⟩
    · intro err2 he
      cases he
      exact ht
    · intro he
      cases he
    · intro doc before after hb
      rw [ht] at hb
      have hm : Event.remove doc ∈
          [Event.findById req.id false, .destroy campground.imageId, .flash "error" err,
           .redirect "back"] := by
        rw [hb]; simp
      simp at hm
  | ok u =>
    have ht : deleteHandler w req =
        [.findById req.id false, .destroy campground.imageId, .remove campground,
         .flash "success" "Campground deleted successfully", .redirect "/campgrounds"] := by
      simp only [deleteHandler, h, hd]
    refine ⟨?_, ?_, ?_⟩
    · intro err2 he
      cases he
    · intro _
      exact ht
    · intro doc before after hb
      rw [ht] at hb
      match before, hb with
      | [], hb => simp at hb
      | [_], hb => simp at hb
      | [a, b], hb =>
        simp only [List.cons_append, List.nil_append, List.cons.injEq, Event.remove.injEq] at hb
        obtain ⟨rfl, rfl, rfl, rfl⟩ := hb
        refine ⟨by simp, rfl, rfl, ?_⟩
        intro e he
        simp only [List.cons_append, List.nil_append, List.mem_cons, List.mem_singleton,
          List.not_mem_nil, or_false] at he
        rcases he with rfl | rfl | rfl | rfl <;> rfl
      | [_, _, _], hb => simp at hb
      | [_, _, _, _], hb => simp at hb
      | _ :: _ :: _ :: _ :: _ :: rest, hb =>
        have := congrArg List.length hb
        simp at this

/-- A delete request whose asset deletion fails leaves the document in place; one whose
asset deletion succeeds removes it after the asset. -/
theorem delete_asset_before_document_witness :
    deleteHandler destroyFails sampleRequest =
      [.findById "c1" false, .destroy (some "old"), .flash "error" "host down",
       .redirect "back"] ∧
    deleteHandler calmWorld sampleRequest =
      [.findById "c1" false, .destroy (some "old"), .remove pineRidge,
       .flash "success" "Campground deleted successfully", .redirect "/campgrounds"] :=
  ⟨(delete_asset_before_document destroyFails sampleRequest pineRidge rfl).1 "host down" rfl,
   (delete_asset_before_document calmWorld sampleRequest pineRidge rfl).2.1 rfl⟩

/-- C6: the update handler attempts an upload only for a request that supplies a new
image file, and only after it has deleted the previous hosted asset of the loaded
listing; for every such request whose listing is loaded the deletion comes first; and
when the upload fails after the deletion succeeded, the handler sets an error flash,
redirects back and writes nothing to the store, so that the stored listing keeps the
image URL and the asset id of the asset that was just deleted. -/
theorem update_deletes_old_asset_first (w : World) (req : Request) :
    (∀ path before after, updateHandler w req = before ++ .upload path :: after →
      ∃ file campground, req.file = some file ∧ w.findById req.id = .ok (some campground) ∧
        path = file.path ∧ Event.destroy campground.imageId ∈ before ∧
        w.destroy campground.imageId = .ok ()) ∧
    (∀ file campground, req.file = some file → w.findById req.id = .ok (some campground) →
      ∃ rest, updateHandler w req =
        .findById req.id false :: .destroy campground.imageId :: rest) ∧
    (∀ file campground err, req.file = some file →
      w.findById req.id = .ok (some campground) →
      w.destroy campground.imageId = .ok () → w.uploadV2 file.path = .error err →
      updateHandler w req =
        [.findById req.id false, .destroy campground.imageId, .upload file.path,
         .flash "error" err, .redirect "back"] ∧
      (∀ e ∈ updateHandler w req, e.isStoreWrite = false)) := by
  refine ⟨?_, ?_, ?_⟩
  · intro path before after hb
    have hmem : Event.upload path ∈ updateHandler w req := by rw [hb]; simp
    cases h : w.findById req.id with
    | error err => simp [updateHandler, h] at hmem
    | ok found =>
      cases hf : req.file with
      | none =>
        cases found <;> simp [updateHandler, h, hf, finishUpdate] at hmem
      | some file =>
        cases found with
        | none => simp [updateHandler, h, hf] at hmem
        | some campground =>
          obtain ⟨rest, hrest⟩ := updateHandler_with_file w req file campground hf h
          cases hd : w.destroy campground.imageId with
          | error err =>
            rw [updateHandler_destroy_error w req file campground err hf h hd] at hmem
            simp at hmem
          | ok u =>
            refine ⟨file, campground, rfl, rfl, ?_, ?_, hd⟩
            · cases hup : w.uploadV2 file.path with
              | error err =>
                rw [updateHandler_upload_error w req file campground err hf h hd hup] at hmem
                simpa using hmem
              | ok result =>
                simp only [updateHandler, h, hf, hd, hup, finishUpdate, List.mem_cons,
                  Event.upload.injEq, reduceCtorEq, false_or, or_false, List.mem_singleton,
                  List.not_mem_nil] at hmem
                exact hmem
            · rw [hrest] at hb
              exact mem_before_of_second _ _ _ rest before after (by simp) (by simp) hb
  · intro file campground hf h
    exact updateHandler_with_file w req file campground hf h
  · intro file campground err hf h hd hu
    have ht := updateHandler_upload_error w req file campground err hf h hd hu
    refine ⟨ht, ?_⟩
    rw [ht]
    intro e he
    simp only [List.mem_cons, List.mem_singleton, List.not_mem_nil, or_false] at he
    rcases he with rfl | rfl | rfl | rfl | rfl <;> rfl

/-- An update with a new image against a host that deletes and then refuses the upload:
the old asset `old` is gone, nothing is saved, and the listing still names it. -/
theorem update_deletes_old_asset_first_witness :
    updateHandler uploadFails sampleRequest =
      [.findById "c1" false, .destroy (some "old"), .upload "/tmp/1pine.JPG",
       .flash "error" "host down", .redirect "back"] ∧
    pineRidge.imageId = some "old" :=
  ⟨((update_deletes_old_asset_first uploadFails sampleRequest).2.2 photo pineRidge
      "host down" rfl rfl rfl rfl).1, rfl⟩

/-- C9: for every list request whose store query succeeds, the handler renders
`campgrounds/index` with the listings the store returned; `noMatch` is the message
`Campground not found, please try again` exactly when a search was performed and the
store returned no listing, and is `null` otherwise, in particular whenever no search was
performed. -/
theorem index_tells_empty_search_apart (w : World) (req : Request) :
    (∀ q, req.search = some q → q ≠ [] →
      ∃ regex, RegExp.new (escapeRegex q) (js "gi") = .ok regex ∧
        ∀ campgrounds, w.find (.name regex) = .ok campgrounds →
          indexHandler w req =
            [.find (.name regex),
             .render "campgrounds/index"
               (.index campgrounds (if campgrounds = [] then some noMatchMessage else none))]) ∧
    ((req.search = none ∨ req.search = some []) →
      ∀ campgrounds, w.find .all = .ok campgrounds →
        indexHandler w req =
          [.find .all, .render "campgrounds/index" (.index campgrounds none)]) ∧
    (∀ view campgrounds noMatch,
      Event.render view (.index campgrounds noMatch) ∈ indexHandler w req →
        view = "campgrounds/index" ∧
        (noMatch = some noMatchMessage ↔
          (∃ q, req.search = some q ∧ q ≠ []) ∧ campgrounds = []) ∧
        (noMatch = none ∨ noMatch = some noMatchMessage)) := by
  have hlen : ∀ cs : List Campground, (cs.length < 1) ↔ cs = [] := by
    intro cs; cases cs <;> simp
  refine ⟨?_, ?_, ?_⟩
  · intro q hs hq
    refine ⟨_, regExp_escapeRegex q, ?_⟩
    intro campgrounds hfind
    rw [indexHandler_search w req q hs hq, hfind]
    simp only [hlen]
  · intro hs campgrounds hfind
    rw [indexHandler_no_search w req hs, hfind]
  · intro view campgrounds noMatch hmem
    by_cases hsearch : ∃ q, req.search = some q ∧ q ≠ []
    · obtain ⟨q, hs, hq⟩ := hsearch
      rw [indexHandler_search w req q hs hq] at hmem
      cases hfind : w.find (.name ⟨seqOf (q.map Re.chr), true, true⟩) with
      | error err =>
        simp [hfind] at hmem
      | ok cs =>
        simp only [hfind, List.mem_cons, List.mem_singleton, Event.render.injEq,
          ViewData.index.injEq, List.not_mem_nil, or_false, false_or, reduceCtorEq] at hmem
        obtain ⟨rfl, rfl, rfl⟩ := hmem
        refine ⟨rfl, ?_, ?_⟩
        · simp only [hlen]
          constructor
          · intro hn
            refine ⟨⟨q, hs, hq⟩, ?_⟩
            by_contra hne
            simp [hne] at hn
          · rintro ⟨_, rfl⟩
            simp
        · by_cases hc : campgrounds.length < 1
          · right; simp [hc]
          · left; simp [hc]
    · have hs : req.search = none ∨ req.search = some [] := by
        cases hq : req.search with
        | none => left; rfl
        | some q =>
          right
          by_contra hne
          exact hsearch ⟨q, hq, fun hnil => hne (by rw [hnil])⟩
      rw [indexHandler_no_search w req hs] at hmem
      cases hfind : w.find .all with
      | error err =>
        simp [hfind] at hmem
      | ok cs =>
        simp only [hfind, List.mem_cons, List.mem_singleton, Event.render.injEq,
          ViewData.index.injEq, List.not_mem_nil, or_false, false_or, reduceCtorEq] at hmem
        obtain ⟨rfl, rfl, rfl⟩ := hmem
        refine ⟨rfl, ?_, Or.inl rfl⟩
        constructor
        · intro hn; cases hn
        · rintro ⟨hq, _⟩; exact absurd hq hsearch

/-- A search in a store without listings renders the message; a list request without a
search in the same store renders `null`. -/
theorem index_tells_empty_search_apart_witness :
    (∃ regex, indexHandler emptyShelf sampleRequest =
      [.find (.name regex),
       .render "campgrounds/index" (.index [] (some noMatchMessage))]) ∧
    indexHandler emptyShelf plainRequest =
      [.find .all, .render "campgrounds/index" (.index [] none)] := by
  obtain ⟨regex, _, h⟩ :=
    (index_tells_empty_search_apart emptyShelf sampleRequest).1 (js "tent (small)") rfl
      (by decide)
  exact ⟨⟨regex, h [] rfl⟩,
    (index_tells_empty_search_apart emptyShelf plainRequest).2.1 (Or.inl rfl) [] rfl⟩

/-- C7 (as stated, refuted): a list request whose store query fails is logged only; no
error flash is set. -/
theorem list_failure_sets_no_flash :
    storeDown.find .all = .error "store down" ∧
    indexHandler storeDown plainRequest = [.find .all, .log (some "store down")] ∧
    (indexHandler storeDown plainRequest).any Event.isErrorFlash = false :=
  ⟨rfl, rfl, rfl⟩

/-- C7 (amended): a failed listing lookup in update and delete, a failed asset deletion
or upload in update, a failed asset deletion in delete and a failed store write in create
are caught where they happen: the handler sets an error flash and redirects, and the
trace shows no later store write or image-host call, no success flash and no second
attempt of the failed call. A failed store query in list or show is logged only: no
flash is set and nothing is rendered. -/
theorem failures_abort_where_checked (w : World) (req : Request) :
    (∀ err, w.findById req.id = .error err →
      updateHandler w req = [.findById req.id false, .flash "error" err, .redirect "back"] ∧
      deleteHandler w req =
        [.findById req.id false, .flash "error" err,
         .redirect ("/campgrounds/" ++ req.id)]) ∧
    (∀ campground file err, w.findById req.id = .ok (some campground) →
      req.file = some file → w.destroy campground.imageId = .error err →
      updateHandler w req =
        [.findById req.id false, .destroy campground.imageId, .flash "error" err,
         .redirect "back"]) ∧
    (∀ campground file err, w.findById req.id = .ok (some campground) →
      req.file = some file → w.destroy campground.imageId = .ok () →
      w.uploadV2 file.path = .error err →
      updateHandler w req =
        [.findById req.id false, .destroy campground.imageId, .upload file.path,
         .flash "error" err, .redirect "back"]) ∧
    (∀ campground err, w.findById req.id = .ok (some campground) →
      w.destroy campground.imageId = .error err →
      deleteHandler w req =
        [.findById req.id false, .destroy campground.imageId, .flash "error" err,
         .redirect "back"]) ∧
    (∀ file user doc err, req.file = some file → req.user = some user →
      Event.create doc ∈ createHandler w req → w.create doc = .error err →
      createHandler w req =
        [.upload file.path, .create doc, .flash "error" "Campground not found",
         .redirect "back"]) ∧
    (∀ err, (req.search = none ∨ req.search = some []) → w.find .all = .error err →
      indexHandler w req = [.find .all, .log (some err)]) ∧
    (∀ q regex err, req.search = some q → q ≠ [] →
      RegExp.new (escapeRegex q) (js "gi") = .ok regex → w.find (.name regex) = .error err →
      indexHandler w req = [.find (.name regex), .log (some err)]) ∧
    (∀ err, w.findByIdPopulated req.id = .error err →
      showHandler w req = [.findById req.id true, .log (some err)]) := by
  refine ⟨?_, ?_, ?_, ?_, ?_, ?_, ?_, ?_⟩
  · intro err h
    exact ⟨updateHandler_lookup_error w req err h, deleteHandler_lookup_error w req err h⟩
  · intro campground file err h hf hd
    exact updateHandler_destroy_error w req file campground err hf h hd
  · intro campground file err h hf hd hu
    exact updateHandler_upload_error w req file campground err hf h hd hu
  · intro campground err h hd
    exact deleteHandler_destroy_error w req campground err h hd
  · intro file user doc err hf hu hmem hc
    rw [createHandler_run w req file user hf hu] at hmem ⊢
    have hdoc : doc =
        { name := req.body.name, price := req.body.price,
          image := (w.uploadV1 file.path).secure_url,
          imageId := (w.uploadV1 file.path).public_id,
          description := req.body.description,
          author := { id := user.id, username := user.username } } := by
      simp only [List.mem_cons, Event.create.injEq, reduceCtorEq, false_or] at hmem
      rcases hmem with h | h
      · exact h
      · split at h <;> simp at h
    subst hdoc
    simp only [hc]
  · intro err hs hfind
    rw [indexHandler_no_search w req hs, hfind]
  · intro q regex err hs hq hre hfind
    rw [regExp_escapeRegex] at hre
    cases hre
    rw [indexHandler_search w req q hs hq, hfind]
  · intro err h
    simp only [showHandler, h]

/-- A store that is down: update and delete set an error flash and redirect, create
sets one after the failed write, list and show only log. -/
theorem failures_abort_where_checked_witness :
    updateHandler storeDown sampleRequest =
      [.findById "c1" false, .flash "error" "store down", .redirect "back"] ∧
    deleteHandler storeDown sampleRequest =
      [.findById "c1" false, .flash "error" "store down", .redirect "/campgrounds/c1"] ∧
    indexHandler storeDown plainRequest = [.find .all, .log (some "store down")] ∧
    showHandler storeDown sampleRequest = [.findById "c1" true, .log (some "store down")] :=
  ⟨((failures_abort_where_checked storeDown sampleRequest).1 "store down" rfl).1,
   ((failures_abort_where_checked storeDown sampleRequest).1 "store down" rfl).2,
   (failures_abort_where_checked storeDown plainRequest).2.2.2.2.2.1 "store down"
     (Or.inl rfl) rfl,
   (failures_abort_where_checked storeDown sampleRequest).2.2.2.2.2.2.2 "store down" rfl⟩

/-- C8: round trip create then show. For every create request by a logged-in user with
an image and the form fields `name`, `price`, `description`, when the upload returns a
non-empty URL and an asset id and the store write succeeds, the document handed to the
store has exactly those three fields, the returned URL as `image`, the returned asset id
as `imageId` and the requester as author; and the show handler for the identifier of the
created listing renders `campgrounds/show` with the stored document, which carries the
same fields. -/
theorem create_then_show (s : Store) (tbl : Nat → JSString) (host : World)
    (newId nextId : String) (req showReq : Request) (file : File) (user : User)
    (url assetId : String) (hf : req.file = some file) (hu : req.user = some user)
    (hup : host.uploadV1 file.path = ⟨some url, some assetId⟩) (hurl : url ≠ "")
    (hfresh : s.lookup newId = none) (hid : showReq.id = newId) :
    ∃ doc : NewCampground,
      createHandler (s.world tbl newId host) req =
        [.upload file.path, .create doc, .redirect ("/campgrounds/" ++ newId)] ∧
      doc.name = req.body.name ∧ doc.price = req.body.price ∧
      doc.description = req.body.description ∧ doc.image = some url ∧ doc.image ≠ some "" ∧
      doc.imageId = some assetId ∧ doc.author = ⟨user.id, user.username⟩ ∧
      showHandler ((s.insert newId doc).2.world tbl nextId host) showReq =
        [.findById newId true,
         .render "campgrounds/show" (.campground (some (s.insert newId doc).1))] ∧
      (s.insert newId doc).1.id = newId ∧
      (s.insert newId doc).1.name = req.body.name ∧
      (s.insert newId doc).1.price = req.body.price ∧
      (s.insert newId doc).1.description = req.body.description ∧
      (s.insert newId doc).1.image = some url ∧
      (s.insert newId doc).1.imageId = some assetId ∧
      (s.insert newId doc).1.author = ⟨user.id, user.username⟩ := by
  have hup2 : (s.world tbl newId host).uploadV1 file.path = ⟨some url, some assetId⟩ := hup
  refine ⟨{ name := req.body.name, price := req.body.price, image := some url,
            imageId := some assetId, description := req.body.description,
            author := ⟨user.id, user.username⟩ }, ?_, rfl, rfl, rfl, rfl, ?_, rfl, rfl, ?_,
          rfl, rfl, rfl, rfl, rfl, rfl, rfl⟩
  · rw [createHandler_run _ req file user hf hu, hup2]
    rfl
  · intro h
    exact hurl (Option.some.inj h)
  · simp only [showHandler, Store.world, hid, lookup_insert s newId _ hfresh, Option.map_some',
      populate_insert]

/-- The round trip for the fields of Pine Ridge, starting from a store without
listings. -/
theorem create_then_show_witness :
    ∃ doc : NewCampground,
      createHandler (emptyStore.world asciiOnly "c9" calmWorld) sampleRequest =
        [.upload "/tmp/1pine.JPG", .create doc, .redirect "/campgrounds/c9"] ∧
      doc.name = some "Pine Ridge" ∧ doc.price = some "20" ∧
      doc.description = some "quiet" ∧ doc.image ≠ some "" ∧
      showHandler ((emptyStore.insert "c9" doc).2.world asciiOnly "c10" calmWorld)
          { sampleRequest with id := "c9" } =
        [.findById "c9" true,
         .render "campgrounds/show" (.campground (some (emptyStore.insert "c9" doc).1))] := by
  obtain ⟨doc, h1, h2, h3, h4, _, h6, _, _, h9, _⟩ :=
    create_then_show emptyStore asciiOnly calmWorld "c9" "c10" sampleRequest
      { sampleRequest with id := "c9" } photo ann "https://img.example/new.jpg" "new"
      rfl rfl rfl (by decide) rfl rfl
  exact ⟨doc, h1, h2, h3, h4, h6, h9⟩

theorem writes_keep_author (w : World) (req : Request) :
    (∀ doc, Event.create doc ∈ createHandler w req →
      ∃ user, req.user = some user ∧ doc.author = ⟨user.id, user.username⟩) ∧
    (∀ doc, Event.save doc ∈ updateHandler w req →
      ∃ campground, w.findById req.id = .ok (some campground) ∧
        doc.id = campground.id ∧ doc.author = campground.author ∧
        doc.comments = campground.comments ∧
        doc.name = req.body.name ∧ doc.price = req.body.price ∧
        doc.description = req.body.description ∧
        (req.file = none → doc.image = campground.image ∧ doc.imageId = campground.imageId)) ∧
    (∀ doc, Event.save doc ∉ indexHandler w req ∧ Event.save doc ∉ newHandler req ∧
      Event.save doc ∉ createHandler w req ∧ Event.save doc ∉ showHandler w req ∧
      Event.save doc ∉ editHandler w req ∧ Event.save doc ∉ deleteHandler w req) ∧
    (∀ e ∈ updateHandler w req, e.isStoreWrite = true → ∃ doc, e = .save doc) := by
  refine ⟨?_, ?_, ?_, ?_⟩
  · intro doc hmem
    cases hf : req.file with
    | none => simp [createHandler, hf] at hmem
    | some file =>
      cases hu : req.user with
      | none => simp [createHandler, hf, hu] at hmem
      | some user =>
        rw [createHandler_run w req file user hf hu] at hmem
        refine ⟨user, rfl, ?_⟩
        simp only [List.mem_cons, Event.create.injEq, reduceCtorEq, false_or] at hmem
        rcases hmem with h | h
        · rw [h]
        · split at h <;> simp at h
  · intro doc hmem
    cases h : w.findById req.id with
    | error err => simp [updateHandler, h] at hmem
    | ok found =>
      cases found with
      | none =>
        cases hf : req.file <;> simp [updateHandler, h, hf] at hmem
      | some campground =>
        refine ⟨campground, rfl, ?_⟩
        cases hf : req.file with
        | none =>
          simp only [updateHandler, h, hf, finishUpdate, List.mem_cons, Event.save.injEq,
            reduceCtorEq, false_or, List.mem_singleton, List.not_mem_nil, or_false] at hmem
          subst hmem
          simp
        | some file =>
          cases hd : w.destroy campground.imageId with
          | error err => simp [updateHandler, h, hf, hd] at hmem
          | ok u =>
            cases hup : w.uploadV2 file.path with
            | error err => simp [updateHandler, h, hf, hd, hup] at hmem
            | ok result =>
              simp only [updateHandler, h, hf, hd, hup, finishUpdate, List.mem_cons,
                Event.save.injEq, reduceCtorEq, false_or, List.mem_singleton,
                List.not_mem_nil, or_false] at hmem
              subst hmem
              simp
  · intro doc
    refine ⟨?_, ?_, ?_, ?_, ?_, ?_⟩
    · intro hmem
      unfold indexHandler at hmem
      split at hmem
      · split at hmem
        · simp at hmem
        · simp only [List.mem_cons, reduceCtorEq, false_or] at hmem
          split at hmem <;> simp at hmem
      · simp only [List.mem_cons, reduceCtorEq, false_or] at hmem
        split at hmem <;> simp at hmem
    · simp [newHandler]
    · intro hmem
      unfold createHandler at hmem
      split at hmem
      · simp at hmem
      · simp only [List.mem_cons, reduceCtorEq, false_or] at hmem
        split at hmem
        · simp at hmem
        · simp only [List.mem_cons, reduceCtorEq, false_or] at hmem
          split at hmem <;> simp at hmem
    · intro hmem
      unfold showHandler at hmem
      simp only [List.mem_cons, reduceCtorEq, false_or] at hmem
      split at hmem <;> simp at hmem
    · intro hmem
      unfold editHandler at hmem
      simp only [List.mem_cons, reduceCtorEq, false_or] at hmem
      split at hmem <;> simp at hmem
    · intro hmem
      unfold deleteHandler at hmem
      simp only [List.mem_cons, reduceCtorEq, false_or] at hmem
      split at hmem
      · simp at hmem
      · simp at hmem
      · simp only [List.mem_cons, reduceCtorEq, false_or] at hmem
        split at hmem <;> simp at hmem
  · intro e hmem hw
    cases h : w.findById req.id with
    | error err =>
      simp only [updateHandler, h, List.mem_cons, List.mem_singleton, List.not_mem_nil,
        or_false] at hmem
      rcases hmem with rfl | rfl | rfl <;> simp [Event.isStoreWrite] at hw
    | ok found =>
      cases found with
      | none =>
        cases hf : req.file with
        | none =>
          simp only [updateHandler, h, hf, List.mem_cons, List.mem_singleton,
            List.not_mem_nil, or_false] at hmem
          rcases hmem with rfl | rfl <;> simp [Event.isStoreWrite] at hw
        | some file =>
          simp only [updateHandler, h, hf, List.mem_cons, List.mem_singleton,
            List.not_mem_nil, or_false] at hmem
          rcases hmem with rfl | rfl | rfl <;> simp [Event.isStoreWrite] at hw
      | some campground =>
        cases hf : req.file with
        | none =>
          simp only [updateHandler, h, hf, finishUpdate, List.mem_cons, List.mem_singleton,
            List.not_mem_nil, or_false] at hmem
          rcases hmem with rfl | rfl | rfl | rfl
          · simp [Event.isStoreWrite] at hw
          · exact ⟨_, rfl⟩
          · simp [Event.isStoreWrite] at hw
          · simp [Event.isStoreWrite] at hw
        | some file =>
          cases hd : w.destroy campground.imageId with
          | error err =>
            simp only [updateHandler, h, hf, hd, List.mem_cons, List.mem_singleton,
              List.not_mem_nil, or_false] at hmem
            rcases hmem with rfl | rfl | rfl | rfl <;> simp [Event.isStoreWrite] at hw
          | ok u =>
            cases hup : w.uploadV2 file.path with
            | error err =>
              simp only [updateHandler, h, hf, hd, hup, List.mem_cons, List.mem_singleton,
                List.not_mem_nil, or_false] at hmem
              rcases hmem with rfl | rfl | rfl | rfl | rfl <;>
                simp [Event.isStoreWrite] at hw
            | ok result =>
              simp only [updateHandler, h, hf, hd, hup, finishUpdate, List.mem_cons,
                List.mem_singleton, List.not_mem_nil, or_false] at hmem
              rcases hmem with rfl | rfl | rfl | rfl | rfl | rfl
              · simp [Event.isStoreWrite] at hw
              · simp [Event.isStoreWrite] at hw
              · simp [Event.isStoreWrite] at hw
              · exact ⟨_, rfl⟩
              · simp [Event.isStoreWrite] at hw
              · simp [Event.isStoreWrite] at hw

/-- C10: author invariant. For every create request with a file by a logged-in user,
the create handler hands the store a document whose author is the id and the username of
the requesting user. For every update request whose listing is loaded (and, when a new
image file is supplied, whose asset deletion and upload succeed), the update handler saves
the loaded listing with `name`, `price` and `description` overwritten from the request
body, with `image` and `imageId` replaced only when a new image file is supplied, and
with identifier, author and comment collection unchanged. Every document created by the
create handler carries the requester as author; every document saved by the update
handler keeps the author and the comments of the loaded listing; no other campground
handler saves a listing, and the update handler makes no other store write. -/
theorem author_is_kept (w : World) (req : Request) :
    (∀ file user, req.file = some file → req.user = some user →
      ∃ rest, createHandler w req =
        .upload file.path ::
          .create
            { name := req.body.name, price := req.body.price,
              image := (w.uploadV1 file.path).secure_url,
              imageId := (w.uploadV1 file.path).public_id,
              description := req.body.description,
              author := { id := user.id, username := user.username } } :: rest) ∧
    (∀ campground, w.findById req.id = .ok (some campground) → req.file = none →
      updateHandler w req =
        [.findById req.id false,
         .save
           { id := campground.id, name := req.body.name, price := req.body.price,
             image := campground.image, imageId := campground.imageId,
             description := req.body.description, author := campground.author,
             comments := campground.comments },
         .flash "success" "Updated successfully",
         .redirect ("/campgrounds/" ++ campground.id)]) ∧
    (∀ campground file result, w.findById req.id = .ok (some campground) →
      req.file = some file → w.destroy campground.imageId = .ok () →
      w.uploadV2 file.path = .ok result →
      updateHandler w req =
        [.findById req.id false, .destroy campground.imageId, .upload file.path,
         .save
           { id := campground.id, name := req.body.name, price := req.body.price,
             image := result.secure_url, imageId := result.public_id,
             description := req.body.description, author := campground.author,
             comments := campground.comments },
         .flash "success" "Updated successfully",
         .redirect ("/campgrounds/" ++ campground.id)]) ∧
    (∀ doc, Event.create doc ∈ createHandler w req →
      ∃ user, req.user = some user ∧ doc.author = ⟨user.id, user.username⟩) ∧
    (∀ doc, Event.save doc ∈ updateHandler w req →
      ∃ campground, w.findById req.id = .ok (some campground) ∧
        doc.id = campground.id ∧ doc.author = campground.author ∧
        doc.comments = campground.comments ∧
        doc.name = req.body.name ∧ doc.price = req.body.price ∧
        doc.description = req.body.description ∧
        (req.file = none → doc.image = campground.image ∧ doc.imageId = campground.imageId)) ∧
    (∀ doc, Event.save doc ∉ indexHandler w req ∧ Event.save doc ∉ newHandler req ∧
      Event.save doc ∉ createHandler w req ∧ Event.save doc ∉ showHandler w req ∧
      Event.save doc ∉ editHandler w req ∧ Event.save doc ∉ deleteHandler w req) ∧
    (∀ e ∈ updateHandler w req, e.isStoreWrite = true → ∃ doc, e = .save doc) := by
  obtain ⟨h1, h2, h3, h4⟩ := writes_keep_author w req
  refine ⟨?_, ?_, ?_, h1, h2, h3, h4⟩
  · intro file user hf hu
    rw [createHandler_run w req file user hf hu]
    exact ⟨_, rfl⟩
  · intro campground h hf
    simp only [updateHandler, h, hf, finishUpdate]
  · intro campground file result h hf hd hup
    simp only [updateHandler, h, hf, hd, hup, finishUpdate]

/-- A create request by `ann` hands the store a document whose author is `ann`; an update
by `ann` with new form fields and a new image saves the listing with the new fields, the
new image and asset id, and the author and comments it had. -/
theorem author_is_kept_witness :
    (∃ rest, createHandler calmWorld sampleRequest =
      .upload "/tmp/1pine.JPG" ::
        .create
          { name := some "Pine Ridge", price := some "20",
            image := some "https://img.example/new.jpg", imageId := some "new",
            description := some "quiet", author := ⟨"u1", "ann"⟩ } :: rest) ∧
    updateHandler calmWorld renameRequest =
      [.findById "c1" false, .destroy (some "old"), .upload "/tmp/1pine.JPG",
       .save
         { id := "c1", name := some "Cedar Hollow", price := some "25",
           image := some "https://img.example/new.jpg", imageId := some "new",
           description := some "windy", author := ⟨"u1", "ann"⟩, comments := [.ref "k1"] },
       .flash "success" "Updated successfully", .redirect "/campgrounds/c1"] :=
  ⟨(author_is_kept calmWorld sampleRequest).1 photo ann rfl rfl,
   (author_is_kept calmWorld renameRequest).2.2.1 pineRidge photo
     ⟨some "https://img.example/new.jpg", some "new"⟩ rfl rfl rfl rfl⟩

/-- C5 (as stated, refuted): an update request by an anonymous requester that carries a
file the upload filter rejects does not end in a redirect to `/login`: the upload
middleware, which runs first, ends it with the error of the filter. -/
theorem anonymous_update_not_redirected :
    anonymousRequest.user = none ∧
    updateRoute asciiOnly sampleText calmWorld anonymousRequest =
      [.raise "Only image files are allowed!"] ∧
    (updateRoute asciiOnly sampleText calmWorld anonymousRequest).getLast? ≠
      some (.redirect "/login") := by
  refine ⟨rfl, ?_, ?_⟩
  · simp only [updateRoute, runRoute, uploadSingle_blocks asciiOnly anonymousRequest
      anonymous_upload_blocked, List.append_nil]
  · simp only [updateRoute, runRoute, uploadSingle_blocks asciiOnly anonymousRequest
      anonymous_upload_blocked, List.append_nil]
    decide

/-- C5 (amended): the bodies of the edit-form, update and delete handlers run only after
`checkCampgroundOwnership` has passed the request on, that is for the recorded author of
the listing; the bodies of the new-form and create handlers run only after `isLoggedIn`
has passed it on. For any other authenticated user the edit-form and delete requests, and
the update request that the upload middleware lets through, end in an error flash and a
redirect back; for an anonymous requester they, and the new-form request and the create
request that the upload middleware lets through, end in an error flash and a redirect to
`/login`. An update or create request whose file the upload filter rejects ends with the
error of the filter, whoever sends it. In none of these refusals is there a store write or
an image-host call. -/
theorem authorization_guards_handlers (tbl : Nat → JSString) (txt : MiddlewareText)
    (w : World) (req : Request) :
    (IsAuthor w req →
      editRoute txt w req = .findById req.id false :: editHandler w req ∧
      deleteRoute txt w req = .findById req.id false :: deleteHandler w req ∧
      (UploadPasses req →
        updateRoute tbl txt w req = .findById req.id false :: updateHandler w req)) ∧
    (∀ user, req.user = some user → ¬ IsAuthor w req →
      ∃ msg,
        editRoute txt w req =
          [.findById req.id false, .flash "error" msg, .redirect "back"] ∧
        deleteRoute txt w req =
          [.findById req.id false, .flash "error" msg, .redirect "back"] ∧
        (UploadPasses req →
          updateRoute tbl txt w req =
            [.findById req.id false, .flash "error" msg, .redirect "back"])) ∧
    (req.user = none →
      editRoute txt w req = [.flash "error" txt.needLogin, .redirect "/login"] ∧
      deleteRoute txt w req = [.flash "error" txt.needLogin, .redirect "/login"] ∧
      newRoute txt req = [.flash "error" txt.needLogin, .redirect "/login"] ∧
      (UploadPasses req →
        updateRoute tbl txt w req = [.flash "error" txt.needLogin, .redirect "/login"] ∧
        createRoute tbl txt w req = [.flash "error" txt.needLogin, .redirect "/login"])) ∧
    (∀ user, req.user = some user →
      newRoute txt req = newHandler req ∧
      (UploadPasses req → createRoute tbl txt w req = createHandler w req)) ∧
    (¬ UploadPasses req →
      updateRoute tbl txt w req = [.raise "Only image files are allowed!"] ∧
      createRoute tbl txt w req = [.raise "Only image files are allowed!"]) ∧
    (¬ IsAuthor w req →
      Untouched (editRoute txt w req) ∧ Untouched (deleteRoute txt w req) ∧
      Untouched (updateRoute tbl txt w req)) ∧
    (req.user = none →
      Untouched (newRoute txt req) ∧ Untouched (createRoute tbl txt w req)) := by
  refine ⟨?_, ?_, ?_, ?_, ?_, ?_, ?_⟩
  · intro h
    refine ⟨?_, ?_, ?_⟩
    · simp only [editRoute, runRoute, check_author txt w req h, List.singleton_append]
    · simp only [deleteRoute, runRoute, check_author txt w req h, List.singleton_append]
    · intro hp
      simp only [updateRoute, runRoute, uploadSingle_passes tbl req hp,
        check_author txt w req h, List.nil_append, List.singleton_append]
  · intro user hu h
    obtain ⟨msg, hm⟩ := check_other txt w req user hu h
    refine ⟨msg, ?_, ?_, ?_⟩
    · simp only [editRoute, runRoute, hm, List.append_nil]
    · simp only [deleteRoute, runRoute, hm, List.append_nil]
    · intro hp
      simp only [updateRoute, runRoute, uploadSingle_passes tbl req hp, hm, List.nil_append,
        List.append_nil]
  · intro hu
    refine ⟨?_, ?_, ?_, ?_⟩
    · simp only [editRoute, runRoute, check_anonymous txt w req hu, List.append_nil]
    · simp only [deleteRoute, runRoute, check_anonymous txt w req hu, List.append_nil]
    · simp only [newRoute, runRoute, isLoggedIn, hu, List.append_nil]
    · intro hp
      constructor
      · simp only [updateRoute, runRoute, uploadSingle_passes tbl req hp,
          check_anonymous txt w req hu, List.nil_append, List.append_nil]
      · simp only [createRoute, runRoute, uploadSingle_passes tbl req hp, isLoggedIn, hu,
          List.nil_append, List.append_nil]
  · intro user hu
    refine ⟨?_, ?_⟩
    · simp only [newRoute, runRoute, isLoggedIn, hu, List.nil_append]
    · intro hp
      simp only [createRoute, runRoute, uploadSingle_passes tbl req hp, isLoggedIn, hu,
        List.nil_append]
  · intro hp
    constructor
    · simp only [updateRoute, runRoute, uploadSingle_blocks tbl req hp, List.append_nil]
    · simp only [createRoute, runRoute, uploadSingle_blocks tbl req hp, List.append_nil]
  · intro h
    obtain ⟨hn, hu⟩ := check_denied_untouched txt w req h
    refine ⟨?_, ?_, ?_⟩
    · simp only [editRoute, runRoute, hn, List.append_nil]
      exact hu
    · simp only [deleteRoute, runRoute, hn, List.append_nil]
      exact hu
    · by_cases hp : UploadPasses req
      · simp only [updateRoute, runRoute, uploadSingle_passes tbl req hp, hn, List.nil_append,
          List.append_nil]
        exact hu
      · simp only [updateRoute, runRoute, uploadSingle_blocks tbl req hp, List.append_nil]
        exact untouched_raise _
  · intro hu
    constructor
    · simp only [newRoute, runRoute, isLoggedIn, hu, List.append_nil]
      exact untouched_login _
    · by_cases hp : UploadPasses req
      · simp only [createRoute, runRoute, uploadSingle_passes tbl req hp, isLoggedIn, hu,
          List.nil_append, List.append_nil]
        exact untouched_login _
      · simp only [createRoute, runRoute, uploadSingle_blocks tbl req hp, List.append_nil]
        exact untouched_raise _

/-- The user `bob` is turned away from the listing of `ann` with a redirect back, and an
anonymous update with a rejected file ends with the error of the filter. -/
theorem authorization_guards_handlers_witness :
    (∃ msg, deleteRoute sampleText calmWorld bobRequest =
      [.findById "c1" false, .flash "error" msg, .redirect "back"]) ∧
    updateRoute asciiOnly sampleText calmWorld anonymousRequest =
      [.raise "Only image files are allowed!"] := by
  obtain ⟨msg, _, h, _⟩ :=
    (authorization_guards_handlers asciiOnly sampleText calmWorld bobRequest).2.1 bob rfl
      bob_is_not_author
  exact ⟨⟨msg, h⟩,
    ((authorization_guards_handlers asciiOnly sampleText calmWorld anonymousRequest).2.2.2.2.1
      anonymous_upload_blocked).1⟩

end YelpCamp
